import Mathlib

/-!
Verification of the babylon_ros scene controller (`src/src/RobotScene.ts`)
against its natural-language specification, by a shallow embedding of the
relevant data model and operations in Lean.

Modelling conventions:
* JavaScript numbers are modelled as exact rationals (`ℚ`); every numeric
  literal appearing in the verified code paths is a finite decimal, so this is
  faithful on those paths.  `Math.abs` is modelled by `mathAbs`.
* Babylon.js object identities (render meshes, transform nodes) are modelled
  as natural-number handles.
* Camera angles are stored as rational multiples of pi (the source only ever
  assigns rational multiples of `Math.PI`, e.g. `-Math.PI / 3` is stored as
  `-1/3`).
* The source file contains two near-duplicate `RobotScene` classes (lines
  21-1726, called the legacy variant below, and lines 1727 on, called the
  current variant).  Where the two differ the embedding carries both.
-/

namespace BabylonRos

/-- Model of JavaScript `Math.abs` on exact rationals. -/
def mathAbs (q : ℚ) : ℚ := if q < 0 then -q else q

/-- `JointType` enum from `src/Joint.ts` (fixed, revolute, continuous,
prismatic, floating, planar). -/
inductive JointType
  | Fixed
  | Revolute
  | Continuous
  | Prismatic
  | Floating
  | Planar
deriving DecidableEq, Repr

/-- `BABYLON.Vector3` restricted to the exact rational values used by the
embedding. -/
structure Vector3 where
  x : ℚ
  y : ℚ
  z : ℚ
deriving DecidableEq, Repr

/-- The three axis-aligned `BABYLON.Color3` constants used by
`addExerciseGizmoToJoint`. -/
inductive Color3
  | Red
  | Green
  | Blue
deriving DecidableEq, Repr

/-- Geometry variants from `src/Geometry*.ts`: box, sphere, cylinder are
synchronous primitives; `meshFile` is the asynchronous `Mesh` geometry from
`GeometryMesh.ts` (checked by `instanceof Mesh` in `RobotScene.ts`). -/
inductive Shape
  | box (width height depth : ℚ)
  | sphere (radius : ℚ)
  | cylinder (length radius : ℚ)
  | meshFile (uri : String)
deriving DecidableEq, Repr

/-- A geometry instance: its shape, plus the runtime render-mesh handles
(`geometry.meshes`, populated by `create` / asynchronous load; `none` models
the Javascript `undefined`). -/
structure Geometry where
  shape : Shape
  meshes : Option (List Nat)
deriving DecidableEq, Repr

/-- `visual.geometry instanceof Mesh` — true exactly for the asynchronous
mesh-from-file geometry. -/
def Geometry.isMesh (g : Geometry) : Bool :=
  match g.shape with
  | Shape.meshFile _ => true
  | _ => false

/-- `Visual` component (`src/Visual.ts`): a named node holding an optional
geometry. -/
structure Visual where
  name : String
  geometry : Option Geometry
deriving DecidableEq, Repr

/-- `Link` (`src/Link.ts`): a named rigid body owning visuals. -/
structure Link where
  name : String
  visuals : List Visual
deriving DecidableEq, Repr

/-- `Joint` (`src/Joint.ts`): name, type, motion axis, limits, the
parent/child link names from the URDF, the resolved child link
back-reference, and the runtime transform-node handle. -/
structure Joint where
  name : String
  type : JointType
  axis : Vector3
  lowerLimit : ℚ
  upperLimit : ℚ
  parentName : String
  childName : String
  child : Option Link
  transform : Option Nat
deriving DecidableEq, Repr

/-- `Robot` (`src/Robot.ts`): the resolved link and joint collections.  The
source stores insertion-ordered `Map`s; the embedding uses insertion-ordered
lists. -/
structure Robot where
  name : String
  links : List Link
  joints : List Joint
deriving DecidableEq, Repr

/-- Number of Mesh-geometry visuals of one link (the per-link contribution of
the first counting pass of `applyURDF`, `RobotScene.ts:2893-2899`). -/
def linkMeshVisualCount (l : Link) : Nat :=
  (l.visuals.filter (fun v => ((v.geometry.map Geometry.isMesh).getD false))).length

/-- Total number of Mesh-geometry visuals of a robot (`totalMeshes` after the
first counting pass of `applyURDF`). -/
def robotMeshVisualCount (r : Robot) : Nat :=
  (r.links.map linkMeshVisualCount).sum

/-! ## Joint exercise gizmo subsystem
Embeds `clearJointExerciseGizmos` (`RobotScene.ts:218-223`),
`addExerciseGizmoToJoint` (`RobotScene.ts:237-326`, textually identical in
the current variant at 1927-2016) and the pointer-down joint-selection
handler installed by `setupJointSelection` (`RobotScene.ts:987-1070`). -/

/-- A constructed `JointRotationGizmo` as configured by
`addExerciseGizmoToJoint`: the constructor arguments (joint, color) and the
fields assigned afterwards (`scaleRatio`, `attachedNode`, `enableLimits`). -/
structure JointRotationGizmo where
  joint : Joint
  color : Color3
  scaleRatio : ℚ
  enableLimits : Bool
  attachedNode : Option Nat
deriving DecidableEq, Repr

/-- A constructed `JointPositionGizmo` as configured by
`addExerciseGizmoToJoint`. -/
structure JointPositionGizmo where
  joint : Joint
  color : Color3
  scaleRatio : ℚ
  attachedNode : Option Nat
deriving DecidableEq, Repr

/-- Console log messages emitted by `addExerciseGizmoToJoint`, abstracted to
their identity. -/
inductive LogMsg
  | noTransform (jointName : String)
  | creatingGizmo (jointName : String)
  | unsupported (jointName : String) (t : JointType)
deriving DecidableEq, Repr

/-- The joint-selection state of the scene controller: `hoveredJoint`, the
single rotation / position exercise gizmo slots, and the status text
(`none` models a cleared status). -/
structure SelState where
  hoveredJoint : Option Joint
  planeRotationGizmo : Option JointRotationGizmo
  planePositionGizmo : Option JointPositionGizmo
  statusText : Option String
deriving DecidableEq, Repr

/-- `clearJointExerciseGizmos` (`RobotScene.ts:218-223`): disposes and clears
both exercise gizmo slots. -/
def clearJointExerciseGizmos (s : SelState) : SelState :=
  { s with planeRotationGizmo := none, planePositionGizmo := none }

/-- `addExerciseGizmoToJoint` (`RobotScene.ts:237-326`).  Returns the updated
gizmo state together with the console messages logged.  The axis tests are
the source's `Math.abs(joint.axis.y) > 0.5` chain: y is tested first, then z,
otherwise the x branch is taken. -/
def addExerciseGizmoToJoint (joint : Joint) (gs : SelState) : SelState × List LogMsg :=
  match joint.transform with
  | none => (gs, [LogMsg.noTransform joint.name])
  | some t =>
    if joint.type = JointType.Fixed then (gs, [LogMsg.creatingGizmo joint.name])
    else
      match joint.type with
      | JointType.Continuous | JointType.Revolute =>
        let color :=
          if 1/2 < mathAbs joint.axis.y then Color3.Green
          else if 1/2 < mathAbs joint.axis.z then Color3.Blue
          else Color3.Red
        let g : JointRotationGizmo :=
          { joint := joint
            color := color
            scaleRatio := 3/4
            enableLimits := decide (joint.type ≠ JointType.Continuous)
            attachedNode := some t }
        ({ gs with planeRotationGizmo := some g }, [LogMsg.creatingGizmo joint.name])
      | JointType.Prismatic =>
        let color :=
          if 1/2 < mathAbs joint.axis.y then Color3.Blue
          else if 1/2 < mathAbs joint.axis.z then Color3.Red
          else Color3.Green
        let g : JointPositionGizmo :=
          { joint := joint
            color := color
            scaleRatio := 3/4
            attachedNode := some t }
        ({ gs with planePositionGizmo := some g }, [LogMsg.creatingGizmo joint.name])
      | JointType.Planar =>
        (gs, [LogMsg.creatingGizmo joint.name, LogMsg.unsupported joint.name JointType.Planar])
      | JointType.Floating =>
        (gs, [LogMsg.creatingGizmo joint.name, LogMsg.unsupported joint.name JointType.Floating])
      | JointType.Fixed => (gs, [LogMsg.creatingGizmo joint.name])

/-- Single-axis choice named by the specification: the y component of the
axis vector is tested first, then z, otherwise x (the dominant-axis
precedence of §4.5, with the source's magnitude threshold of 0.5). -/
inductive AxisName
  | xAxis
  | yAxis
  | zAxis
deriving DecidableEq, Repr

/-- The specification's dominant-axis selection rule (y before z before x). -/
def dominantAxisChoice (v : Vector3) : AxisName :=
  if 1/2 < mathAbs v.y then AxisName.yAxis
  else if 1/2 < mathAbs v.z then AxisName.zAxis
  else AxisName.xAxis

/-- Rotation-manipulator color per selected axis (`RobotScene.ts:250-276`:
Green is the Y manipulator, Blue the Z manipulator, Red the X manipulator). -/
def rotationColorFor : AxisName → Color3
  | AxisName.yAxis => Color3.Green
  | AxisName.zAxis => Color3.Blue
  | AxisName.xAxis => Color3.Red

/-- Position-manipulator color per selected axis (`RobotScene.ts:291-309`). -/
def positionColorFor : AxisName → Color3
  | AxisName.yAxis => Color3.Blue
  | AxisName.zAxis => Color3.Red
  | AxisName.xAxis => Color3.Green

/-- A picked render mesh as seen by the pointer handler: its own handle and
the handle of its parent transform node. -/
structure PickedMesh where
  meshId : Nat
  parent : Option Nat
deriving DecidableEq, Repr

/-- Does a visual own the given render mesh (`visual.geometry?.meshes`
contains the picked mesh, `RobotScene.ts:1023-1033`)? -/
def visualHasMesh (v : Visual) (m : Nat) : Bool :=
  match v.geometry with
  | none => false
  | some g => (g.meshes.getD []).contains m

/-- One iteration of the joint-search loop of the pointer-down handler
(`RobotScene.ts:1009-1036`): fixed joints are skipped; a joint whose
transform is the picked mesh's direct parent is selected (overwriting any
earlier candidate, as in the source); otherwise, if no candidate was found
yet, a joint whose child link owns the picked mesh is selected. -/
def findJointStep (picked : PickedMesh) (found : Option Joint) (j : Joint) : Option Joint :=
  if j.type = JointType.Fixed then found
  else
    match j.transform with
    | none => found
    | some t =>
      if picked.parent = some t then some j
      else
        match j.child, found with
        | some childLink, none =>
          if childLink.visuals.any (fun v => visualHasMesh v picked.meshId) then some j
          else found
        | _, _ => found

/-- The full joint search of the pointer-down handler over the robot's
joints in insertion order. -/
def findExercisableJoint (joints : List Joint) (picked : PickedMesh) : Option Joint :=
  joints.foldl (findJointStep picked) none

/-- `updateJointStatusLabel` (`RobotScene.ts:328-360`) abstracted to its
effect on the status text: a status string headed by the joint's name. -/
def updateJointStatusLabel (j : Joint) (s : SelState) : SelState :=
  { s with statusText := some j.name }

/-- The pointer-down handler installed by `setupJointSelection`
(`RobotScene.ts:987-1070`), given the pick result: clear the status, search
the joints; on a find that differs from `hoveredJoint`, clear the old gizmos,
set `hoveredJoint`, attach the exercise gizmo and update the status label;
on no find, undefine `hoveredJoint`, clear gizmos and status. -/
def onPointerDown (robot : Option Robot) (hit : Option PickedMesh) (s0 : SelState) : SelState :=
  let s := { s0 with statusText := none }
  match hit, robot with
  | some picked, some r =>
    (match findExercisableJoint r.joints picked with
     | some fj =>
       if s.hoveredJoint = some fj then s
       else
         let s1 := clearJointExerciseGizmos s
         let s2 := { s1 with hoveredJoint := some fj }
         let s3 := (addExerciseGizmoToJoint fj s2).1
         (match fj.transform with
          | some _ => updateJointStatusLabel fj s3
          | none => s3)
     | none =>
       { clearJointExerciseGizmos s with hoveredJoint := none, statusText := none })
  | _, _ => s

/-- The joint types for which `addExerciseGizmoToJoint` attaches a
manipulator. -/
def supportedJointType (t : JointType) : Bool :=
  match t with
  | JointType.Revolute | JointType.Continuous | JointType.Prismatic => true
  | _ => false

/-- Is any exercise gizmo attached? -/
def gizmoAttached (s : SelState) : Bool :=
  s.planeRotationGizmo.isSome || s.planePositionGizmo.isSome

/-- Consistency of the selection state, as maintained by the pointer
handler: the attached gizmo (if any) matches the hovered joint's type, and
an unsupported or absent hovered joint has no gizmo. -/
def SelInv (s : SelState) : Prop :=
  (s.hoveredJoint = none → s.planeRotationGizmo = none ∧ s.planePositionGizmo = none) ∧
  (∀ j, s.hoveredJoint = some j →
    ((j.type = JointType.Revolute ∨ j.type = JointType.Continuous) →
      s.planePositionGizmo = none ∧ ∃ g, s.planeRotationGizmo = some g ∧ g.joint = j) ∧
    (j.type = JointType.Prismatic →
      s.planeRotationGizmo = none ∧ ∃ g, s.planePositionGizmo = some g ∧ g.joint = j) ∧
    (supportedJointType j.type = false →
      s.planeRotationGizmo = none ∧ s.planePositionGizmo = none))

/-! ### Helper lemmas for the gizmo subsystem -/

/-- Effect of `addExerciseGizmoToJoint` on a Revolute or Continuous joint
with a transform: a rotation gizmo is stored whose color encodes the
y-before-z-before-x axis test; the position slot is untouched. -/
theorem addExerciseGizmoToJoint_rotation (j : Joint) (gs : SelState) (t : Nat)
    (hty : j.type = JointType.Revolute ∨ j.type = JointType.Continuous)
    (ht : j.transform = some t) :
    ∃ g, (addExerciseGizmoToJoint j gs).1 = { gs with planeRotationGizmo := some g } ∧
      g.color = rotationColorFor (dominantAxisChoice j.axis) ∧
      g.joint = j ∧ g.attachedNode = some t ∧ g.scaleRatio = 3/4 ∧
      g.enableLimits = decide (j.type ≠ JointType.Continuous) := by
  obtain ⟨nm, ty, ax, lo, hi, pn, cn, ch, tr⟩ := j
  simp only at ht hty ⊢
  subst ht
  rcases hty with h | h <;> subst h <;>
  · refine ⟨_, rfl, ?_, rfl, rfl, rfl, rfl⟩
    simp only [dominantAxisChoice, rotationColorFor]
    split_ifs <;> rfl

/-- Effect of `addExerciseGizmoToJoint` on a Prismatic joint with a
transform: a position gizmo is stored under the same y-before-z-before-x
axis test; the rotation slot is untouched. -/
theorem addExerciseGizmoToJoint_position (j : Joint) (gs : SelState) (t : Nat)
    (hty : j.type = JointType.Prismatic) (ht : j.transform = some t) :
    ∃ g, (addExerciseGizmoToJoint j gs).1 = { gs with planePositionGizmo := some g } ∧
      g.color = positionColorFor (dominantAxisChoice j.axis) ∧
      g.joint = j ∧ g.attachedNode = some t ∧ g.scaleRatio = 3/4 := by
  obtain ⟨nm, ty, ax, lo, hi, pn, cn, ch, tr⟩ := j
  simp only at ht hty ⊢
  subst ht; subst hty
  refine ⟨_, rfl, ?_, rfl, rfl, rfl⟩
  simp only [dominantAxisChoice, positionColorFor]
  split_ifs <;> rfl

/-- `addExerciseGizmoToJoint` on a Fixed joint never changes the gizmo
state (`RobotScene.ts:246-248`). -/
theorem addExerciseGizmoToJoint_fixed (j : Joint) (gs : SelState)
    (hty : j.type = JointType.Fixed) :
    (addExerciseGizmoToJoint j gs).1 = gs := by
  obtain ⟨nm, ty, ax, lo, hi, pn, cn, ch, tr⟩ := j
  simp only at hty
  subst hty
  cases tr <;> rfl

/-- `addExerciseGizmoToJoint` on a Planar or Floating joint changes
nothing and, when the joint has a transform, logs the not-yet-supported
notice (`RobotScene.ts:318-324`). -/
theorem addExerciseGizmoToJoint_unsupported (j : Joint) (gs : SelState)
    (hty : j.type = JointType.Planar ∨ j.type = JointType.Floating) :
    (addExerciseGizmoToJoint j gs).1 = gs ∧
    (∀ t, j.transform = some t →
      (addExerciseGizmoToJoint j gs).2 =
        [LogMsg.creatingGizmo j.name, LogMsg.unsupported j.name j.type]) := by
  obtain ⟨nm, ty, ax, lo, hi, pn, cn, ch, tr⟩ := j
  simp only at hty ⊢
  rcases hty with h | h <;> subst h <;> cases tr
  · exact ⟨rfl, fun t ht => by cases ht⟩
  · exact ⟨rfl, fun t ht => rfl⟩
  · exact ⟨rfl, fun t ht => by cases ht⟩
  · exact ⟨rfl, fun t ht => rfl⟩

/-- One step of the pointer search either keeps the accumulator or selects
the examined joint, and it can select it only if the joint is non-fixed and
has a transform. -/
theorem findJointStep_cases (picked : PickedMesh) (acc : Option Joint) (j : Joint) :
    findJointStep picked acc j = acc ∨
      (findJointStep picked acc j = some j ∧
        j.type ≠ JointType.Fixed ∧ j.transform.isSome = true) := by
  by_cases hfix : j.type = JointType.Fixed
  · left; simp [findJointStep, hfix]
  · cases htr : j.transform with
    | none => left; simp [findJointStep, hfix, htr]
    | some t =>
      by_cases hp : picked.parent = some t
      · right
        refine ⟨?_, hfix, by simp [htr]⟩
        simp [findJointStep, hfix, htr, hp]
      · cases hch : j.child with
        | none => left; simp [findJointStep, hfix, htr, hp, hch]
        | some childLink =>
          cases acc with
          | some k => left; simp [findJointStep, hfix, htr, hp, hch]
          | none =>
            by_cases hv : (childLink.visuals.any fun v => visualHasMesh v picked.meshId) = true
            · right
              refine ⟨?_, hfix, by simp [htr]⟩
              simp [findJointStep, hfix, htr, hp, hch, hv]
            · left
              simp [findJointStep, hfix, htr, hp, hch, hv]

/-- Any joint produced by the pointer search is non-fixed and has a
transform (the search skips fixed joints and only examines joints with a
transform, `RobotScene.ts:1011-1013`). -/
theorem findExercisableJoint_spec (js : List Joint) (picked : PickedMesh) (j : Joint)
    (h : findExercisableJoint js picked = some j) :
    j.type ≠ JointType.Fixed ∧ j.transform.isSome = true := by
  suffices H : ∀ (acc : Option Joint),
      (∀ k, acc = some k → k.type ≠ JointType.Fixed ∧ k.transform.isSome = true) →
      ∀ k, js.foldl (findJointStep picked) acc = some k →
        k.type ≠ JointType.Fixed ∧ k.transform.isSome = true by
    exact H none (by intro k hk; cases hk) j h
  clear h
  induction js with
  | nil => intro acc hacc k hk; exact hacc k hk
  | cons a as ih =>
    intro acc hacc k hk
    refine ih (findJointStep picked acc a) ?_ k hk
    intro m hm
    rcases findJointStep_cases picked acc a with hc | ⟨hc, hfix, hsome⟩
    · exact hacc m (hc ▸ hm)
    · rw [hc] at hm
      cases hm
      exact ⟨hfix, hsome⟩

/-- Pointer-down handler when the pick resolves to no exercisable joint
(`RobotScene.ts:1055-1059`): hovered joint undefined, gizmos disposed,
status cleared. -/
theorem onPointerDown_noFind (r : Robot) (picked : PickedMesh) (s : SelState)
    (h : findExercisableJoint r.joints picked = none) :
    onPointerDown (some r) (some picked) s =
      { hoveredJoint := none, planeRotationGizmo := none,
        planePositionGizmo := none, statusText := none } := by
  simp [onPointerDown, h, clearJointExerciseGizmos]

/-- Pointer-down handler when the pick resolves to the already-hovered
joint: the state is unchanged apart from the initial status clear. -/
theorem onPointerDown_sameJoint (r : Robot) (picked : PickedMesh) (s : SelState) (fj : Joint)
    (h : findExercisableJoint r.joints picked = some fj)
    (hsame : s.hoveredJoint = some fj) :
    onPointerDown (some r) (some picked) s = { s with statusText := none } := by
  simp [onPointerDown, h, hsame]

/-- Pointer-down handler on a newly found Revolute or Continuous joint:
old gizmos are cleared, the joint becomes hovered, a rotation gizmo is
attached and the status label is set. -/
theorem onPointerDown_newRotation (r : Robot) (picked : PickedMesh) (s : SelState) (fj : Joint)
    (h : findExercisableJoint r.joints picked = some fj)
    (hne : ¬ s.hoveredJoint = some fj)
    (hty : fj.type = JointType.Revolute ∨ fj.type = JointType.Continuous) :
    ∃ g, onPointerDown (some r) (some picked) s =
      { hoveredJoint := some fj, planeRotationGizmo := some g,
        planePositionGizmo := none, statusText := some fj.name } ∧
      g.joint = fj ∧ g.color = rotationColorFor (dominantAxisChoice fj.axis) ∧
      g.enableLimits = decide (fj.type ≠ JointType.Continuous) := by
  obtain ⟨-, hsome⟩ := findExercisableJoint_spec r.joints picked fj h
  obtain ⟨t, ht⟩ := Option.isSome_iff_exists.mp hsome
  obtain ⟨g, hg, hc, hj, ha, hs, hl⟩ :=
    addExerciseGizmoToJoint_rotation fj
      { hoveredJoint := some fj, planeRotationGizmo := none,
        planePositionGizmo := none, statusText := none } t hty ht
  refine ⟨g, ?_, hj, hc, hl⟩
  simp [onPointerDown, h, hne, clearJointExerciseGizmos, ht, hg, updateJointStatusLabel]

/-- Pointer-down handler on a newly found Prismatic joint: old gizmos are
cleared, the joint becomes hovered, a position gizmo is attached and the
status label is set. -/
theorem onPointerDown_newPosition (r : Robot) (picked : PickedMesh) (s : SelState) (fj : Joint)
    (h : findExercisableJoint r.joints picked = some fj)
    (hne : ¬ s.hoveredJoint = some fj)
    (hty : fj.type = JointType.Prismatic) :
    ∃ g, onPointerDown (some r) (some picked) s =
      { hoveredJoint := some fj, planeRotationGizmo := none,
        planePositionGizmo := some g, statusText := some fj.name } ∧
      g.joint = fj ∧ g.color = positionColorFor (dominantAxisChoice fj.axis) := by
  obtain ⟨-, hsome⟩ := findExercisableJoint_spec r.joints picked fj h
  obtain ⟨t, ht⟩ := Option.isSome_iff_exists.mp hsome
  obtain ⟨g, hg, hc, hj, ha, hs⟩ :=
    addExerciseGizmoToJoint_position fj
      { hoveredJoint := some fj, planeRotationGizmo := none,
        planePositionGizmo := none, statusText := none } t hty ht
  refine ⟨g, ?_, hj, hc⟩
  simp [onPointerDown, h, hne, clearJointExerciseGizmos, ht, hg, updateJointStatusLabel]

/-- Pointer-down handler on a newly found Planar or Floating joint: the
joint becomes hovered and the status label is set, but no gizmo is
attached. -/
theorem onPointerDown_newUnsupported (r : Robot) (picked : PickedMesh) (s : SelState) (fj : Joint)
    (h : findExercisableJoint r.joints picked = some fj)
    (hne : ¬ s.hoveredJoint = some fj)
    (hty : fj.type = JointType.Planar ∨ fj.type = JointType.Floating) :
    onPointerDown (some r) (some picked) s =
      { hoveredJoint := some fj, planeRotationGizmo := none,
        planePositionGizmo := none, statusText := some fj.name } := by
  obtain ⟨-, hsome⟩ := findExercisableJoint_spec r.joints picked fj h
  obtain ⟨t, ht⟩ := Option.isSome_iff_exists.mp hsome
  obtain ⟨hg, -⟩ :=
    addExerciseGizmoToJoint_unsupported fj
      { hoveredJoint := some fj, planeRotationGizmo := none,
        planePositionGizmo := none, statusText := none } hty
  simp [onPointerDown, h, hne, clearJointExerciseGizmos, ht, hg, updateJointStatusLabel]

/-! ### Claim theorems for the gizmo subsystem -/

/-- The idle selection state: nothing hovered, no gizmos, no status. -/
def idleSelState : SelState :=
  { hoveredJoint := none, planeRotationGizmo := none,
    planePositionGizmo := none, statusText := none }

/-- A concrete Revolute joint with the given axis, used by the concrete
dominant-axis examples of the specification. -/
def mkRevolute (ax : Vector3) : Joint :=
  { name := "j1", type := JointType.Revolute, axis := ax, lowerLimit := -1,
    upperLimit := 1, parentName := "base", childName := "arm",
    child := none, transform := some 1 }

/-- A concrete Prismatic joint with the given axis. -/
def mkPrismatic (ax : Vector3) : Joint :=
  { name := "j2", type := JointType.Prismatic, axis := ax, lowerLimit := 0,
    upperLimit := 1, parentName := "base", childName := "slide",
    child := none, transform := some 2 }

/-- C2: for every Revolute or Continuous joint selected for exercise,
`addExerciseGizmoToJoint` attaches a single-axis rotation manipulator chosen
by the dominant-axis precedence y before z before x (the y component is
tested first, then z, otherwise x); axis (0,0.9,0.1) yields the Y-dominant
(green) manipulator, (0.1,0.1,0.9) yields Z-dominant (blue), (0.9,0.1,0.1)
yields X-dominant (red), and (0.6,0.6,0.6) yields Y; a Prismatic joint gets
the analogous single-axis linear manipulator under the same precedence. -/
theorem dominant_axis_gizmo_selection :
    (∀ (j : Joint) (gs : SelState) (t : Nat),
      (j.type = JointType.Revolute ∨ j.type = JointType.Continuous) →
      j.transform = some t →
      ∃ g, (addExerciseGizmoToJoint j gs).1 = { gs with planeRotationGizmo := some g } ∧
        g.color = rotationColorFor (dominantAxisChoice j.axis) ∧
        g.joint = j ∧ g.attachedNode = some t ∧
        g.enableLimits = decide (j.type ≠ JointType.Continuous)) ∧
    (∀ (j : Joint) (gs : SelState) (t : Nat),
      j.type = JointType.Prismatic → j.transform = some t →
      ∃ g, (addExerciseGizmoToJoint j gs).1 = { gs with planePositionGizmo := some g } ∧
        g.color = positionColorFor (dominantAxisChoice j.axis) ∧
        g.joint = j ∧ g.attachedNode = some t) ∧
    (∀ v : Vector3, 1/2 < mathAbs v.y → dominantAxisChoice v = AxisName.yAxis) ∧
    (∀ v : Vector3, ¬ 1/2 < mathAbs v.y → 1/2 < mathAbs v.z →
      dominantAxisChoice v = AxisName.zAxis) ∧
    (∀ v : Vector3, ¬ 1/2 < mathAbs v.y → ¬ 1/2 < mathAbs v.z →
      dominantAxisChoice v = AxisName.xAxis) ∧
    ((addExerciseGizmoToJoint (mkRevolute ⟨0, 9/10, 1/10⟩) idleSelState).1.planeRotationGizmo.map
      (fun g => g.color) = some Color3.Green ∧
      dominantAxisChoice ⟨0, 9/10, 1/10⟩ = AxisName.yAxis) ∧
    ((addExerciseGizmoToJoint (mkRevolute ⟨1/10, 1/10, 9/10⟩) idleSelState).1.planeRotationGizmo.map
      (fun g => g.color) = some Color3.Blue ∧
      dominantAxisChoice ⟨1/10, 1/10, 9/10⟩ = AxisName.zAxis) ∧
    ((addExerciseGizmoToJoint (mkRevolute ⟨9/10, 1/10, 1/10⟩) idleSelState).1.planeRotationGizmo.map
      (fun g => g.color) = some Color3.Red ∧
      dominantAxisChoice ⟨9/10, 1/10, 1/10⟩ = AxisName.xAxis) ∧
    ((addExerciseGizmoToJoint (mkRevolute ⟨6/10, 6/10, 6/10⟩) idleSelState).1.planeRotationGizmo.map
      (fun g => g.color) = some Color3.Green ∧
      dominantAxisChoice ⟨6/10, 6/10, 6/10⟩ = AxisName.yAxis) ∧
    ((addExerciseGizmoToJoint (mkPrismatic ⟨0, 9/10, 1/10⟩) idleSelState).1.planePositionGizmo.map
      (fun g => g.color) = some (positionColorFor AxisName.yAxis)) := by
  refine ⟨?_, ?_, ?_, ?_, ?_, ?_, ?_, ?_, ?_, ?_⟩
  · intro j gs t hty ht
    obtain ⟨g, hg, hc, hj, ha, -, hl⟩ := addExerciseGizmoToJoint_rotation j gs t hty ht
    exact ⟨g, hg, hc, hj, ha, hl⟩
  · intro j gs t hty ht
    obtain ⟨g, hg, hc, hj, ha, -⟩ := addExerciseGizmoToJoint_position j gs t hty ht
    exact ⟨g, hg, hc, hj, ha⟩
  · intro v hy; unfold dominantAxisChoice; rw [if_pos hy]
  · intro v hy hz; unfold dominantAxisChoice; rw [if_neg hy, if_pos hz]
  · intro v hy hz; unfold dominantAxisChoice; rw [if_neg hy, if_neg hz]
  · exact ⟨by with_unfolding_all decide, by with_unfolding_all decide⟩
  · exact ⟨by with_unfolding_all decide, by with_unfolding_all decide⟩
  · exact ⟨by with_unfolding_all decide, by with_unfolding_all decide⟩
  · exact ⟨by with_unfolding_all decide, by with_unfolding_all decide⟩
  · with_unfolding_all decide

/-- Witness for the dominant-axis selection theorem: its first conjunct
instantiated at the concrete Y-dominant revolute joint. -/
theorem dominant_axis_gizmo_selection_witness :
    ∃ g, (addExerciseGizmoToJoint (mkRevolute ⟨0, 9/10, 1/10⟩) idleSelState).1 =
        { idleSelState with planeRotationGizmo := some g } ∧
      g.color = rotationColorFor (dominantAxisChoice (mkRevolute ⟨0, 9/10, 1/10⟩).axis) ∧
      g.joint = mkRevolute ⟨0, 9/10, 1/10⟩ ∧ g.attachedNode = some 1 ∧
      g.enableLimits = decide ((mkRevolute ⟨0, 9/10, 1/10⟩).type ≠ JointType.Continuous) :=
  dominant_axis_gizmo_selection.1 (mkRevolute ⟨0, 9/10, 1/10⟩) idleSelState 1
    (Or.inl rfl) rfl

/-- C8: Fixed joints never get an exercise gizmo — `addExerciseGizmoToJoint`
returns without attaching, and the pointer search never resolves to a fixed
joint, so a pick on a fixed joint's mesh takes the clearing branch (a no-op
from Idle); Planar and Floating joints only log a not-yet-supported notice
and leave the manipulation state at Idle (no rotation or position
manipulator attached). -/
theorem fixed_and_unsupported_joint_selection :
    (∀ (j : Joint) (gs : SelState), j.type = JointType.Fixed →
      (addExerciseGizmoToJoint j gs).1 = gs) ∧
    (∀ (js : List Joint) (picked : PickedMesh) (j : Joint),
      findExercisableJoint js picked = some j → j.type ≠ JointType.Fixed) ∧
    (∀ (r : Robot) (picked : PickedMesh) (s : SelState),
      findExercisableJoint r.joints picked = none →
      (onPointerDown (some r) (some picked) s).planeRotationGizmo = none ∧
      (onPointerDown (some r) (some picked) s).planePositionGizmo = none ∧
      (onPointerDown (some r) (some picked) s).hoveredJoint = none) ∧
    (∀ (j : Joint) (gs : SelState) (t : Nat),
      (j.type = JointType.Planar ∨ j.type = JointType.Floating) →
      (addExerciseGizmoToJoint j gs).1 = gs ∧
      (j.transform = some t →
        (addExerciseGizmoToJoint j gs).2 =
          [LogMsg.creatingGizmo j.name, LogMsg.unsupported j.name j.type])) ∧
    (∀ (r : Robot) (picked : PickedMesh) (s : SelState) (fj : Joint),
      SelInv s → findExercisableJoint r.joints picked = some fj →
      (fj.type = JointType.Planar ∨ fj.type = JointType.Floating) →
      (onPointerDown (some r) (some picked) s).planeRotationGizmo = none ∧
      (onPointerDown (some r) (some picked) s).planePositionGizmo = none) := by
  refine ⟨?_, ?_, ?_, ?_, ?_⟩
  · exact fun j gs h => addExerciseGizmoToJoint_fixed j gs h
  · exact fun js picked j h => (findExercisableJoint_spec js picked j h).1
  · intro r picked s h
    rw [onPointerDown_noFind r picked s h]
    exact ⟨rfl, rfl, rfl⟩
  · intro j gs t hty
    obtain ⟨h1, h2⟩ := addExerciseGizmoToJoint_unsupported j gs hty
    exact ⟨h1, h2 t⟩
  · intro r picked s fj hInv hfind hty
    by_cases hsame : s.hoveredJoint = some fj
    · rw [onPointerDown_sameJoint r picked s fj hfind hsame]
      obtain ⟨-, -, hun⟩ := hInv.2 fj hsame
      have hsup : supportedJointType fj.type = false := by
        rcases hty with h | h <;> simp [supportedJointType, h]
      obtain ⟨h1, h2⟩ := hun hsup
      exact ⟨h1, h2⟩
    · rw [onPointerDown_newUnsupported r picked s fj hfind hsame hty]
      exact ⟨rfl, rfl⟩

/-- Witness for the fixed / unsupported joint theorem: its fourth conjunct
instantiated at a concrete Planar joint, from the idle state. -/
theorem fixed_and_unsupported_joint_selection_witness :
    (addExerciseGizmoToJoint
      { name := "pl", type := JointType.Planar, axis := ⟨0, 0, 1⟩, lowerLimit := 0,
        upperLimit := 0, parentName := "base", childName := "lid",
        child := none, transform := some 7 } idleSelState).1 = idleSelState ∧
    (({ name := "pl", type := JointType.Planar, axis := ⟨0, 0, 1⟩, lowerLimit := 0,
        upperLimit := 0, parentName := "base", childName := "lid",
        child := none, transform := some 7 } : Joint).transform = some 7 →
      (addExerciseGizmoToJoint
        { name := "pl", type := JointType.Planar, axis := ⟨0, 0, 1⟩, lowerLimit := 0,
          upperLimit := 0, parentName := "base", childName := "lid",
          child := none, transform := some 7 } idleSelState).2 =
        [LogMsg.creatingGizmo "pl", LogMsg.unsupported "pl" JointType.Planar]) :=
  fixed_and_unsupported_joint_selection.2.2.2.1
    { name := "pl", type := JointType.Planar, axis := ⟨0, 0, 1⟩, lowerLimit := 0,
      upperLimit := 0, parentName := "base", childName := "lid",
      child := none, transform := some 7 } idleSelState 7 (Or.inl rfl)

/-- The child link of the concrete Planar joint used to refute the C10
biconditional: its single visual owns render mesh 5. -/
def lidLink : Link :=
  { name := "lid",
    visuals := [{ name := "lidVisual",
                  geometry := some { shape := Shape.box 1 1 1, meshes := some [5] } }] }

/-- A concrete Planar joint whose child link owns render mesh 5. -/
def planarJoint : Joint :=
  { name := "pl", type := JointType.Planar, axis := ⟨0, 0, 1⟩, lowerLimit := 0,
    upperLimit := 0, parentName := "base", childName := "lid",
    child := some lidLink, transform := some 7 }

/-- A robot whose only joint is the concrete Planar joint. -/
def planarRobot : Robot :=
  { name := "r", links := [{ name := "base", visuals := [] }, lidLink],
    joints := [planarJoint] }

/-- The pick hitting render mesh 5 (whose parent transform node is not any
joint transform). -/
def pickedLidMesh : PickedMesh := { meshId := 5, parent := some 99 }

/-- C10 counterexample: this pointer-down pick resolves to a non-fixed
(Planar) joint, yet after the handler runs no exercise gizmo is attached —
refuting "a gizmo is attached after the pick if and only if the pick
resolved to a non-fixed joint". -/
theorem pick_attach_iff_nonfixed_counterexample :
    findExercisableJoint planarRobot.joints pickedLidMesh = some planarJoint ∧
    planarJoint.type ≠ JointType.Fixed ∧
    gizmoAttached (onPointerDown (some planarRobot) (some pickedLidMesh) idleSelState) = false := by
  refine ⟨by with_unfolding_all decide, by decide, by with_unfolding_all decide⟩

/-- C10 (amended): a pointer-down pick hitting a mesh that resolves to no
non-fixed joint disposes any attached exercise gizmo, undefines the hovered
joint and clears the status; conversely, from any consistent selection
state, a gizmo is attached after the pick if and only if the pick resolved
to a joint of a supported type (Revolute, Continuous or Prismatic — Planar
and Floating resolutions attach nothing); the handler preserves consistency,
and a consistent state carries at most one exercise gizmo. -/
theorem pick_clear_and_attach_amended :
    (∀ (r : Robot) (picked : PickedMesh) (s : SelState),
      findExercisableJoint r.joints picked = none →
      onPointerDown (some r) (some picked) s =
        { hoveredJoint := none, planeRotationGizmo := none,
          planePositionGizmo := none, statusText := none }) ∧
    (∀ (r : Robot) (picked : PickedMesh) (s : SelState), SelInv s →
      (gizmoAttached (onPointerDown (some r) (some picked) s) = true ↔
        ∃ fj, findExercisableJoint r.joints picked = some fj ∧
          supportedJointType fj.type = true)) ∧
    (∀ (r : Robot) (picked : PickedMesh) (s : SelState), SelInv s →
      SelInv (onPointerDown (some r) (some picked) s)) ∧
    (∀ s : SelState, SelInv s →
      s.planeRotationGizmo = none ∨ s.planePositionGizmo = none) := by
  refine ⟨?_, ?_, ?_, ?_⟩
  · exact fun r picked s h => onPointerDown_noFind r picked s h
  · intro r picked s hInv
    cases hfind : findExercisableJoint r.joints picked with
    | none =>
      rw [onPointerDown_noFind r picked s hfind]
      constructor
      · intro hatt; exact absurd hatt (by simp [gizmoAttached])
      · rintro ⟨fj, hf, -⟩
        cases hf
    | some fj =>
      have hspec := findExercisableJoint_spec r.joints picked fj hfind
      by_cases hsame : s.hoveredJoint = some fj
      · rw [onPointerDown_sameJoint r picked s fj hfind hsame]
        obtain ⟨hrot, hpris, hun⟩ := hInv.2 fj hsame
        cases hft : fj.type with
        | Fixed => exact absurd hft hspec.1
        | Revolute =>
          obtain ⟨-, g, hg, -⟩ := hrot (Or.inl hft)
          refine iff_of_true ?_ ⟨fj, rfl, by simp [supportedJointType, hft]⟩
          simp [gizmoAttached, hg]
        | Continuous =>
          obtain ⟨-, g, hg, -⟩ := hrot (Or.inr hft)
          refine iff_of_true ?_ ⟨fj, rfl, by simp [supportedJointType, hft]⟩
          simp [gizmoAttached, hg]
        | Prismatic =>
          obtain ⟨-, g, hg, -⟩ := hpris hft
          refine iff_of_true ?_ ⟨fj, rfl, by simp [supportedJointType, hft]⟩
          simp [gizmoAttached, hg]
        | Planar =>
          obtain ⟨h1, h2⟩ := hun (by simp [supportedJointType, hft])
          refine iff_of_false ?_ ?_
          · simp [gizmoAttached, h1, h2]
          · rintro ⟨fj2, hf2, hsup⟩
            cases hf2
            simp [supportedJointType, hft] at hsup
        | Floating =>
          obtain ⟨h1, h2⟩ := hun (by simp [supportedJointType, hft])
          refine iff_of_false ?_ ?_
          · simp [gizmoAttached, h1, h2]
          · rintro ⟨fj2, hf2, hsup⟩
            cases hf2
            simp [supportedJointType, hft] at hsup
      · cases hft : fj.type with
        | Fixed => exact absurd hft hspec.1
        | Revolute =>
          obtain ⟨g, hpost, -, -, -⟩ :=
            onPointerDown_newRotation r picked s fj hfind hsame (Or.inl hft)
          rw [hpost]
          exact iff_of_true (by simp [gizmoAttached])
            ⟨fj, rfl, by simp [supportedJointType, hft]⟩
        | Continuous =>
          obtain ⟨g, hpost, -, -, -⟩ :=
            onPointerDown_newRotation r picked s fj hfind hsame (Or.inr hft)
          rw [hpost]
          exact iff_of_true (by simp [gizmoAttached])
            ⟨fj, rfl, by simp [supportedJointType, hft]⟩
        | Prismatic =>
          obtain ⟨g, hpost, -, -⟩ :=
            onPointerDown_newPosition r picked s fj hfind hsame hft
          rw [hpost]
          exact iff_of_true (by simp [gizmoAttached])
            ⟨fj, rfl, by simp [supportedJointType, hft]⟩
        | Planar =>
          rw [onPointerDown_newUnsupported r picked s fj hfind hsame (Or.inl hft)]
          refine iff_of_false (by simp [gizmoAttached]) ?_
          rintro ⟨fj2, hf2, hsup⟩
          cases hf2
          simp [supportedJointType, hft] at hsup
        | Floating =>
          rw [onPointerDown_newUnsupported r picked s fj hfind hsame (Or.inr hft)]
          refine iff_of_false (by simp [gizmoAttached]) ?_
          rintro ⟨fj2, hf2, hsup⟩
          cases hf2
          simp [supportedJointType, hft] at hsup
  · intro r picked s hInv
    cases hfind : findExercisableJoint r.joints picked with
    | none =>
      rw [onPointerDown_noFind r picked s hfind]
      exact ⟨fun _ => ⟨rfl, rfl⟩, fun _ hj => nomatch hj⟩
    | some fj =>
      have hspec := findExercisableJoint_spec r.joints picked fj hfind
      by_cases hsame : s.hoveredJoint = some fj
      · rw [onPointerDown_sameJoint r picked s fj hfind hsame]
        exact hInv
      · cases hft : fj.type with
        | Fixed => exact absurd hft hspec.1
        | Revolute =>
          obtain ⟨g, hpost, hj, -, -⟩ :=
            onPointerDown_newRotation r picked s fj hfind hsame (Or.inl hft)
          rw [hpost]
          refine ⟨?_, ?_⟩
          · intro h
            cases h
          intro j hjj
          cases hjj
          refine ⟨?_, ?_, ?_⟩
          · intro h2
            exact ⟨rfl, g, rfl, hj⟩
          · intro hp; rw [hft] at hp; exact absurd hp (by decide)
          · intro hf; simp [supportedJointType, hft] at hf
        | Continuous =>
          obtain ⟨g, hpost, hj, -, -⟩ :=
            onPointerDown_newRotation r picked s fj hfind hsame (Or.inr hft)
          rw [hpost]
          refine ⟨?_, ?_⟩
          · intro h
            cases h
          intro j hjj
          cases hjj
          refine ⟨?_, ?_, ?_⟩
          · intro h2
            exact ⟨rfl, g, rfl, hj⟩
          · intro hp; rw [hft] at hp; exact absurd hp (by decide)
          · intro hf; simp [supportedJointType, hft] at hf
        | Prismatic =>
          obtain ⟨g, hpost, hj, -⟩ :=
            onPointerDown_newPosition r picked s fj hfind hsame hft
          rw [hpost]
          refine ⟨?_, ?_⟩
          · intro h
            cases h
          intro j hjj
          cases hjj
          refine ⟨?_, ?_, ?_⟩
          · rintro (hp | hp) <;> rw [hft] at hp <;> exact absurd hp (by decide)
          · intro h2
            exact ⟨rfl, g, rfl, hj⟩
          · intro hf; simp [supportedJointType, hft] at hf
        | Planar =>
          rw [onPointerDown_newUnsupported r picked s fj hfind hsame (Or.inl hft)]
          refine ⟨?_, ?_⟩
          · intro h
            cases h
          intro j hjj
          cases hjj
          refine ⟨?_, ?_, ?_⟩
          · rintro (hp | hp) <;> rw [hft] at hp <;> exact absurd hp (by decide)
          · intro hp; rw [hft] at hp; exact absurd hp (by decide)
          · intro h2
            exact ⟨rfl, rfl⟩
        | Floating =>
          rw [onPointerDown_newUnsupported r picked s fj hfind hsame (Or.inr hft)]
          refine ⟨?_, ?_⟩
          · intro h
            cases h
          intro j hjj
          cases hjj
          refine ⟨?_, ?_, ?_⟩
          · rintro (hp | hp) <;> rw [hft] at hp <;> exact absurd hp (by decide)
          · intro hp; rw [hft] at hp; exact absurd hp (by decide)
          · intro h2
            exact ⟨rfl, rfl⟩
  · intro s hInv
    cases hh : s.hoveredJoint with
    | none => exact Or.inl (hInv.1 hh).1
    | some j =>
      obtain ⟨hrot, hpris, hun⟩ := hInv.2 j hh
      cases hft : j.type with
      | Fixed => exact Or.inl (hun (by simp [supportedJointType, hft])).1
      | Revolute => exact Or.inr (hrot (Or.inl hft)).1
      | Continuous => exact Or.inr (hrot (Or.inr hft)).1
      | Prismatic => exact Or.inl (hpris hft).1
      | Planar => exact Or.inl (hun (by simp [supportedJointType, hft])).1
      | Floating => exact Or.inl (hun (by simp [supportedJointType, hft])).1

/-- A concrete Revolute joint whose child link owns render mesh 5. -/
def revJoint : Joint :=
  { name := "rv", type := JointType.Revolute, axis := ⟨0, 0, 1⟩, lowerLimit := -1,
    upperLimit := 1, parentName := "base", childName := "lid",
    child := some lidLink, transform := some 8 }

/-- A robot whose only joint is the concrete Revolute joint. -/
def revRobot : Robot :=
  { name := "r2", links := [{ name := "base", visuals := [] }, lidLink],
    joints := [revJoint] }

/-- Witness for the amended C10 theorem: the attach-iff-supported
equivalence instantiated at a concrete revolute pick from the idle state. -/
theorem pick_clear_and_attach_amended_witness :
    gizmoAttached (onPointerDown (some revRobot) (some pickedLidMesh) idleSelState) = true ↔
      ∃ fj, findExercisableJoint revRobot.joints pickedLidMesh = some fj ∧
        supportedJointType fj.type = true :=
  pick_clear_and_attach_amended.2.1 revRobot pickedLidMesh idleSelState
    ⟨fun _ => ⟨rfl, rfl⟩, fun _ hj => nomatch hj⟩

/-! ## Mesh loading, progress aggregation and applyURDF

Embeds the current-variant scene controller state (`RobotScene.ts:1727` on):
`updateOverallProgress` (2839-2855), `applyURDF` (2857-2991) and the mesh
progress / completion callbacks it installs (2906-2954), `frameModel`
(3058-3117, here only its latch effect; the camera numerics are modelled
separately below).

The source keys the per-mesh progress map by the strings
`mesh_0, mesh_1, ...` generated from the running mesh index; the embedding
uses the index itself as the key (the two key spaces are in bijection).
Babylon mesh-geometry instances are modelled by `MeshTracker` records held
in an ever-growing arena `meshInstances`; the handle of an instance is its
index in that arena.  A tracker records the callbacks `applyURDF` attached
to the geometry (`setLoadProgressCallback` / `setLoadCompleteCallback`),
each represented by the mesh key it captured, and whether the load has
already settled (a Babylon loader fires its completion once, and fires
progress events only while the transfer is in flight). -/

/-- A `BABYLON.ISceneLoaderProgressEvent`: `lengthComputable`, `loaded`,
`total`. -/
structure ProgressEventData where
  lengthComputable : Bool
  loaded : ℚ
  total : ℚ
deriving DecidableEq, Repr

/-- The callback state of one Mesh geometry instance. `none` models a
callback that was never attached or was discarded again. -/
structure MeshTracker where
  progressId : Option Nat
  completeId : Option Nat
  completed : Bool
deriving DecidableEq, Repr

/-- The aggregator-relevant state of the current-variant `RobotScene`:
the tracked robot, the mesh-instance arena, the counters
`totalMeshes` / `loadedMeshes` / `pendingMeshLoads`, the per-mesh progress
map, the framing latch, the registered progress callback (modelled by
whether one is registered, with `emissions` recording every call made to
it, oldest first), and the deferred `frameModel` timers
(`framesScheduled` counts outstanding timers; `frameTriggers` counts how
often a frame timer was ever scheduled). -/
structure RobotSceneState where
  hasScene : Bool
  hasCamera : Bool
  currentURDF : Option String
  currentRobot : Option Robot
  currentRobotMeshes : List Nat
  meshInstances : List MeshTracker
  totalMeshes : Nat
  loadedMeshes : Nat
  pendingMeshLoads : Int
  meshLoadProgress : List (Nat × ℚ)
  hasBeenFramed : Bool
  onProgressCallback : Bool
  emissions : List (Nat × Nat × ℚ)
  framesScheduled : Nat
  frameTriggers : Nat
deriving DecidableEq, Repr

/-- JavaScript `Map.prototype.set`: overwrite the entry in place if the key
is present, else append it (insertion order preserved). -/
def mapSet (m : List (Nat × ℚ)) (k : Nat) (v : ℚ) : List (Nat × ℚ) :=
  if m.any (fun p => p.1 == k) then m.map (fun p => if p.1 = k then (k, v) else p)
  else m ++ [(k, v)]

/-- Sum of all values of the progress map (the `forEach` accumulation in
`updateOverallProgress`, `RobotScene.ts:2845-2848`). -/
def mapValuesSum (m : List (Nat × ℚ)) : ℚ := (m.map (fun p => p.2)).sum

/-- `updateOverallProgress` (`RobotScene.ts:2839-2855`): no-op without a
registered callback or with `totalMeshes === 0`; otherwise emits
`(loadedMeshes, totalMeshes, averageProgress)` with
`averageProgress = totalProgress / totalMeshes`. -/
def updateOverallProgress (s : RobotSceneState) : RobotSceneState :=
  if s.onProgressCallback = false ∨ s.totalMeshes = 0 then s
  else
    { s with emissions := s.emissions ++
        [(s.loadedMeshes, s.totalMeshes,
          mapValuesSum s.meshLoadProgress / (s.totalMeshes : ℚ))] }

/-- Discard both callbacks of a mesh instance. -/
def detachMeshInstance (t : MeshTracker) : MeshTracker :=
  { t with progressId := none, completeId := none }

/-- Detach the instances at the listed handles, walking the arena with a
running index. -/
def detachFrom (handles : List Nat) : Nat → List MeshTracker → List MeshTracker
  | _, [] => []
  | i, t :: ts =>
    (if handles.contains i then detachMeshInstance t else t) :: detachFrom handles (i + 1) ts

/-- Modelled from the spec: `Robot.dispose` (the `Robot.ts` source is not
part of this snapshot) releases the robot and, per §5 (Cancellation),
"discard[s] its pending mesh-load subscriptions ... disposal must detach" —
so disposing detaches the progress and completion callbacks of every mesh
instance belonging to the disposed robot. -/
def disposeCurrentRobot (s : RobotSceneState) : RobotSceneState :=
  { s with
    meshInstances := detachFrom s.currentRobotMeshes 0 s.meshInstances,
    currentRobotMeshes := [] }

/-- The head of `applyURDF` (`RobotScene.ts:2864-2868`): if a robot is
loaded, detach it from `currentRobot` and dispose it — before the new
parse is even attempted. -/
def applyURDFPrologue (s : RobotSceneState) : RobotSceneState :=
  match s.currentRobot with
  | some _ => disposeCurrentRobot { s with currentRobot := none }
  | none => s

/-- One iteration of the second pass of `applyURDF`
(`RobotScene.ts:2906-2954`) for the mesh visual with running index `k`:
increment `pendingMeshLoads`, seed the progress map entry with 0, and
attach the progress and completion callbacks (a fresh tracker in the
arena, both callbacks capturing key `k`). -/
def registerMesh (s : RobotSceneState) (k : Nat) : RobotSceneState :=
  { s with
    pendingMeshLoads := s.pendingMeshLoads + 1,
    meshLoadProgress := mapSet s.meshLoadProgress k 0,
    currentRobotMeshes := s.currentRobotMeshes ++ [s.meshInstances.length],
    meshInstances := s.meshInstances ++
      [{ progressId := some k, completeId := some k, completed := false }] }

/-- Schedule the deferred `setTimeout(... frameModel ...)` tick. -/
def scheduleFrameModel (s : RobotSceneState) : RobotSceneState :=
  { s with
    framesScheduled := s.framesScheduled + 1,
    frameTriggers := s.frameTriggers + 1 }

/-- All render meshes currently owned by the robot's visuals (the
collection loop of `frameModel`, `RobotScene.ts:3064-3073`), counted. -/
def robotRenderMeshCount (r : Robot) : Nat :=
  (r.links.map (fun l =>
    (l.visuals.map (fun v =>
      match v.geometry with
      | some g => (g.meshes.getD []).length
      | none => 0)).sum)).sum

/-- `frameModel` (`RobotScene.ts:3058-3117`) restricted to its guard and
latch behavior: bail out without scene, camera or robot, or when the robot
owns no render meshes; otherwise frame and set `hasBeenFramed` (the camera
numerics are modelled separately for `resetCamera`). -/
def frameModel (s : RobotSceneState) : RobotSceneState :=
  if s.hasScene = false ∨ s.hasCamera = false then s
  else
    match s.currentRobot with
    | none => s
    | some r =>
      if robotRenderMeshCount r = 0 then s
      else { s with hasBeenFramed := true }

/-- `applyURDF` (`RobotScene.ts:2857-2991`, current variant).  The
deserializer `urdf.deserializeUrdfToRobot` is not part of this snapshot, so
its outcome is passed in as `parsed` (`Except.error` models a thrown
`MalformedURDFError`; the `catch` block only reports and returns).  After
disposing any previous robot (prologue) and resetting the tracking state,
the success path counts the Mesh visuals, emits the initial progress event
when a callback is registered and meshes exist, registers the per-mesh
callbacks, and — when there is nothing to load — schedules the deferred
framing tick immediately. -/
def applyURDF (urdfText : String) (parsed : Except String Robot)
    (s0 : RobotSceneState) : RobotSceneState :=
  let s := applyURDFPrologue s0
  if s.hasScene = false then s
  else
    let s1 := { s with
      currentURDF := some urdfText,
      pendingMeshLoads := 0,
      hasBeenFramed := false,
      totalMeshes := 0,
      loadedMeshes := 0,
      meshLoadProgress := [] }
    match parsed with
    | Except.error _ => s1
    | Except.ok r =>
      let n := robotMeshVisualCount r
      let s2 := { s1 with currentRobot := some r, totalMeshes := n }
      let s3 :=
        if s2.onProgressCallback = true ∧ 0 < n then
          { s2 with emissions := s2.emissions ++ [(0, n, 0)] }
        else s2
      let s4 := (List.range n).foldl registerMesh s3
      if s4.pendingMeshLoads = 0 ∧ s4.hasBeenFramed = false then scheduleFrameModel s4
      else s4

/-- The per-mesh progress value computed by the progress callback
(`RobotScene.ts:2918-2923`): `loaded / total * 100` when the length is
computable and positive, else pinned at 0. -/
def perMeshProgressValue (ev : ProgressEventData) : ℚ :=
  if ev.lengthComputable = true ∧ 0 < ev.total then ev.loaded / ev.total * 100 else 0

/-- Mark the instance at the given handle as settled. -/
def markCompleted : List MeshTracker → Nat → List MeshTracker
  | [], _ => []
  | t :: ts, 0 => { t with completed := true } :: ts
  | t :: ts, Nat.succ h => t :: markCompleted ts h

/-- A progress event arriving from the loader of mesh instance `h`
(`RobotScene.ts:2918-2927`): if the instance is still in flight and its
progress callback attached, store the per-mesh value under the captured
key and re-emit the aggregate. -/
def fireMeshProgress (s : RobotSceneState) (h : Nat) (ev : ProgressEventData) :
    RobotSceneState :=
  match s.meshInstances.get? h with
  | none => s
  | some t =>
    if t.completed = true then s
    else
      match t.progressId with
      | none => s
      | some mid =>
        updateOverallProgress
          { s with meshLoadProgress := mapSet s.meshLoadProgress mid (perMeshProgressValue ev) }

/-- The completion callback of mesh instance `h` firing
(`RobotScene.ts:2929-2949`): if the instance is still in flight and its
completion callback attached, decrement `pendingMeshLoads`, increment
`loadedMeshes`, set the captured key's progress to 100, re-emit the
aggregate, and — when `pendingMeshLoads` hits zero with the latch unset —
schedule the deferred framing tick. -/
def fireMeshComplete (s : RobotSceneState) (h : Nat) : RobotSceneState :=
  match s.meshInstances.get? h with
  | none => s
  | some t =>
    if t.completed = true then s
    else
      match t.completeId with
      | none => s
      | some mid =>
        let s1 := { s with
          meshInstances := markCompleted s.meshInstances h,
          pendingMeshLoads := s.pendingMeshLoads - 1,
          loadedMeshes := s.loadedMeshes + 1,
          meshLoadProgress := mapSet s.meshLoadProgress mid 100 }
        let s2 := updateOverallProgress s1
        if s2.pendingMeshLoads = 0 ∧ s2.hasBeenFramed = false then scheduleFrameModel s2
        else s2

/-- One deferred `frameModel` timer firing. -/
def fireFrameTimer (s : RobotSceneState) : RobotSceneState :=
  if s.framesScheduled = 0 then s
  else frameModel { s with framesScheduled := s.framesScheduled - 1 }

/-- The asynchronous events of the load lifecycle, interleaved in any
order by the event loop. -/
inductive SceneEvent
  | meshProgress (h : Nat) (ev : ProgressEventData)
  | meshComplete (h : Nat)
  | frameTimer
deriving DecidableEq, Repr

/-- Dispatch one event. -/
def stepScene (s : RobotSceneState) (e : SceneEvent) : RobotSceneState :=
  match e with
  | SceneEvent.meshProgress h ev => fireMeshProgress s h ev
  | SceneEvent.meshComplete h => fireMeshComplete s h
  | SceneEvent.frameTimer => fireFrameTimer s

/-- Run a sequence of events. -/
def runScene (s : RobotSceneState) (es : List SceneEvent) : RobotSceneState :=
  es.foldl stepScene s

/-- A freshly created scene with no robot loaded; `cb` records whether a
progress callback is registered. -/
def freshScene (cb : Bool) : RobotSceneState :=
  { hasScene := true, hasCamera := true, currentURDF := none,
    currentRobot := none, currentRobotMeshes := [], meshInstances := [],
    totalMeshes := 0, loadedMeshes := 0, pendingMeshLoads := 0,
    meshLoadProgress := [], hasBeenFramed := false, onProgressCallback := cb,
    emissions := [], framesScheduled := 0, frameTriggers := 0 }

/-! ### Counting and list lemmas for the load invariant -/

/-- Number of settled meshes among the `n` instances of the current load,
for a settlement predicate `c`. -/
def countCompleted (n : Nat) (c : Nat → Bool) : Nat :=
  ((List.range n).filter c).length

theorem countCompleted_succ (n : Nat) (c : Nat → Bool) :
    countCompleted (n + 1) c = countCompleted n c + (if c n = true then 1 else 0) := by
  simp only [countCompleted, List.range_succ, List.filter_append, List.length_append]
  by_cases hc : c n = true <;> simp [List.filter, hc]

theorem countCompleted_le (n : Nat) (c : Nat → Bool) : countCompleted n c ≤ n := by
  have := List.length_filter_le c (List.range n)
  simpa [countCompleted] using this

theorem countCompleted_all (n : Nat) (c : Nat → Bool) (h : countCompleted n c = n) :
    ∀ k, k < n → c k = true := by
  induction n with
  | zero => intro k hk; omega
  | succ n ih =>
    rw [countCompleted_succ] at h
    by_cases hc : c n = true
    · rw [if_pos hc] at h
      have h2 : countCompleted n c = n := by omega
      intro k hk
      rcases Nat.lt_succ_iff_lt_or_eq.mp hk with hk2 | hk2
      · exact ih h2 k hk2
      · subst hk2; exact hc
    · rw [if_neg hc] at h
      have := countCompleted_le n c
      omega

theorem countCompleted_update (n h : Nat) (c : Nat → Bool) (hh : h < n) (hc : c h = false) :
    countCompleted n (fun k => if k = h then true else c k) = countCompleted n c + 1 := by
  induction n with
  | zero => omega
  | succ n ih =>
    rw [countCompleted_succ, countCompleted_succ]
    by_cases hhn : h = n
    · have hcn : c n = false := hhn ▸ hc
      rw [if_pos (by simp [hhn]), if_neg (by simp [hcn])]
      have heq : countCompleted n (fun k => if k = h then true else c k) = countCompleted n c := by
        apply congrArg List.length
        apply List.filter_congr
        intro k hk
        have hkr := List.mem_range.mp hk
        have hkn : k ≠ h := by omega
        simp [hkn]
      omega
    · have hh2 : h < n := by
        rcases Nat.lt_succ_iff_lt_or_eq.mp hh with h2 | h2
        · exact h2
        · exact absurd h2 hhn
      rw [ih hh2]
      have hcond : (if (if n = h then true else c n) = true then 1 else 0)
          = (if c n = true then 1 else 0) := by
        simp [show n ≠ h from fun e => hhn e.symm]
      omega

theorem countCompleted_lt (n h : Nat) (c : Nat → Bool) (hh : h < n) (hc : c h = false) :
    countCompleted n c < n := by
  refine lt_of_le_of_ne (countCompleted_le n c) (fun he => ?_)
  have := countCompleted_all n c he h hh
  simp [hc] at this

theorem mapSet_map_range (n h : Nat) (v : Nat → ℚ) (q : ℚ) (hh : h < n) :
    mapSet ((List.range n).map (fun k => (k, v k))) h q =
      (List.range n).map (fun k => (k, if k = h then q else v k)) := by
  have hmem : (((List.range n).map (fun k => (k, v k))).any (fun p => p.1 == h)) = true := by
    rw [List.any_eq_true]
    exact ⟨(h, v h), List.mem_map_of_mem _ (List.mem_range.mpr hh), by simp⟩
  rw [mapSet, if_pos hmem, List.map_map]
  congr 1
  funext k
  by_cases hk : k = h <;> simp [hk]

theorem markCompleted_get (l : List MeshTracker) (h i : Nat) :
    (markCompleted l h).get? i =
      (l.get? i).map (fun t => if i = h then { t with completed := true } else t) := by
  induction l generalizing h i with
  | nil => simp [markCompleted]
  | cons t ts ih =>
    cases h with
    | zero =>
      cases i with
      | zero => simp [markCompleted]
      | succ i =>
        simp only [markCompleted, List.get?_cons_succ]
        have : ∀ x : Option MeshTracker, x.map (fun t => if i + 1 = 0
            then { t with completed := true } else t) = x := by
          intro x; cases x <;> simp
        rw [this]
    | succ h =>
      cases i with
      | zero => simp [markCompleted]
      | succ i =>
        simp only [markCompleted, List.get?_cons_succ, ih]
        congr 1
        funext t
        by_cases hik : i = h <;> simp [hik]

theorem markCompleted_length (l : List MeshTracker) (h : Nat) :
    (markCompleted l h).length = l.length := by
  induction l generalizing h with
  | nil => rfl
  | cons t ts ih =>
    cases h with
    | zero => simp [markCompleted]
    | succ h => simp [markCompleted, ih]

theorem markCompleted_map_range (n h : Nat) (c : Nat → Bool) :
    markCompleted ((List.range n).map (fun k =>
      ({ progressId := some k, completeId := some k, completed := c k } : MeshTracker))) h =
    (List.range n).map (fun k =>
      ({ progressId := some k, completeId := some k,
         completed := if k = h then true else c k } : MeshTracker)) := by
  apply List.ext
  intro i
  rw [markCompleted_get]
  by_cases hi : i < n
  · rw [List.get?_map, List.get?_map, List.get?_range hi]
    by_cases hik : i = h <;> simp [hik]
  · have h1 : (List.range n).get? i = none := by
      rw [List.get?_eq_none]
      simpa using Nat.le_of_not_lt hi
    rw [List.get?_map, List.get?_map, h1]
    rfl

/-- Net effect of the registration pass over the `n` mesh visuals, started
from a state whose progress map was just cleared. -/
theorem registerMesh_foldl (n : Nat) (s : RobotSceneState)
    (hprog : s.meshLoadProgress = []) :
    (List.range n).foldl registerMesh s = { s with
      pendingMeshLoads := s.pendingMeshLoads + n,
      meshLoadProgress := (List.range n).map (fun k => (k, (0 : ℚ))),
      meshInstances := s.meshInstances ++ (List.range n).map (fun k =>
        { progressId := some k, completeId := some k, completed := false }),
      currentRobotMeshes := s.currentRobotMeshes ++
        (List.range n).map (fun k => s.meshInstances.length + k) } := by
  induction n with
  | zero =>
    simp only [List.range_zero, List.foldl_nil, List.map_nil, List.append_nil,
      Nat.cast_zero, add_zero]
    rw [← hprog]
  | succ n ih =>
    rw [List.range_succ, List.foldl_append, ih]
    simp only [List.foldl_cons, List.foldl_nil]
    have hfresh : (((List.range n).map (fun k => (k, (0 : ℚ)))).any
        (fun p => p.1 == n)) = false := by
      rw [List.any_eq_false]
      rintro ⟨a, b⟩ hmem
      rw [List.mem_map] at hmem
      obtain ⟨k, hk, he⟩ := hmem
      have hkn := List.mem_range.mp hk
      cases he
      simp only [Nat.beq_eq_true_eq]
      omega
    simp only [registerMesh, mapSet]
    rw [if_neg (by simp [hfresh])]
    have hlen : (s.meshInstances ++ (List.range n).map (fun k =>
        ({ progressId := some k, completeId := some k, completed := false } : MeshTracker))).length
        = s.meshInstances.length + n := by
      simp
    simp only [hlen, List.range_succ, List.map_append, List.map_cons, List.map_nil,
      List.append_assoc]
    congr 1
    push_cast
    ring

/-- The state reached by a successful `applyURDF` on a fresh scene, in
closed form. -/
def applyFreshResult (cb : Bool) (text : String) (r : Robot) : RobotSceneState :=
  { hasScene := true, hasCamera := true, currentURDF := some text,
    currentRobot := some r,
    currentRobotMeshes := List.range (robotMeshVisualCount r),
    meshInstances := (List.range (robotMeshVisualCount r)).map (fun k =>
      { progressId := some k, completeId := some k, completed := false }),
    totalMeshes := robotMeshVisualCount r, loadedMeshes := 0,
    pendingMeshLoads := (robotMeshVisualCount r : Int),
    meshLoadProgress := (List.range (robotMeshVisualCount r)).map (fun k => (k, (0 : ℚ))),
    hasBeenFramed := false, onProgressCallback := cb,
    emissions := if cb = true ∧ 0 < robotMeshVisualCount r
      then [(0, robotMeshVisualCount r, 0)] else [],
    framesScheduled := if robotMeshVisualCount r = 0 then 1 else 0,
    frameTriggers := if robotMeshVisualCount r = 0 then 1 else 0 }

/-- A successful `applyURDF` on a fresh scene produces exactly
`applyFreshResult`: counters seeded, per-mesh callbacks attached, the
initial emission present if and only if a callback is registered and
meshes exist, and the deferred framing tick already scheduled if and only
if there is nothing to load. -/
theorem applyURDF_fresh_eq (cb : Bool) (text : String) (r : Robot) :
    applyURDF text (Except.ok r) (freshScene cb) = applyFreshResult cb text r := by
  by_cases hcb : cb = true ∧ 0 < robotMeshVisualCount r
  · have hn0 : robotMeshVisualCount r ≠ 0 := by omega
    rw [applyURDF, show applyURDFPrologue (freshScene cb) = freshScene cb from rfl,
      if_neg (by simp [freshScene])]
    simp only [freshScene]
    rw [if_pos hcb, registerMesh_foldl _ _ rfl]
    rw [if_neg (by push_cast; simp; omega)]
    simp [applyFreshResult, hcb, hn0]
  · rw [applyURDF, show applyURDFPrologue (freshScene cb) = freshScene cb from rfl,
      if_neg (by simp [freshScene])]
    simp only [freshScene]
    rw [if_neg hcb, registerMesh_foldl _ _ rfl]
    by_cases hn : robotMeshVisualCount r = 0
    · rw [if_pos (by simp [hn])]
      simp [applyFreshResult, scheduleFrameModel, hcb, hn]
    · rw [if_neg (by push_cast; simp; omega)]
      simp [applyFreshResult, hcb, hn]

/-- The invariant maintained by the event loop over one load of `n` mesh
visuals of robot `r`: `c` records which instances have settled.  It ties the
counters, the per-mesh progress map, the framing latch and the emission log
to `c`. -/
structure LoadInv (cb : Bool) (n : Nat) (r : Robot) (c : Nat → Bool)
    (s : RobotSceneState) : Prop where
  scene : s.hasScene = true
  camera : s.hasCamera = true
  robot : s.currentRobot = some r
  total : s.totalMeshes = n
  callback : s.onProgressCallback = cb
  instances : s.meshInstances = (List.range n).map (fun k =>
    { progressId := some k, completeId := some k, completed := c k })
  handles : s.currentRobotMeshes = List.range n
  loaded : s.loadedMeshes = countCompleted n c
  pending : s.pendingMeshLoads = (n : Int) - (countCompleted n c : Int)
  progressMap : ∃ v : Nat → ℚ,
    s.meshLoadProgress = (List.range n).map (fun k => (k, v k)) ∧
    ∀ k, k < n → c k = true → v k = 100
  triggers : s.frameTriggers = (if countCompleted n c = n then 1 else 0)
  notFramed : countCompleted n c < n → s.hasBeenFramed = false ∧ s.framesScheduled = 0
  silent : cb = false → s.emissions = []
  finalEmit : cb = true → 0 < n → countCompleted n c = n →
    s.emissions.getLast? = some (n, n, 100)

/-- A successful `applyURDF` on a fresh scene establishes the load
invariant with no instance settled. -/
theorem applyURDF_fresh_LoadInv (cb : Bool) (text : String) (r : Robot) :
    LoadInv cb (robotMeshVisualCount r) r (fun _ => false)
      (applyURDF text (Except.ok r) (freshScene cb)) := by
  rw [applyURDF_fresh_eq]
  have hcc : countCompleted (robotMeshVisualCount r) (fun _ => false) = 0 := by
    simp [countCompleted]
  refine ⟨rfl, rfl, rfl, rfl, rfl, rfl, rfl, ?_, ?_, ?_, ?_, ?_, ?_, ?_⟩
  · simp [applyFreshResult, hcc]
  · simp [applyFreshResult, hcc]
  · exact ⟨fun _ => 0, rfl, fun k _ hk => by cases hk⟩
  · rw [hcc]
    simp only [applyFreshResult]
    by_cases hn : robotMeshVisualCount r = 0 <;> simp [hn, Eq.comm]
  · intro hlt
    rw [hcc] at hlt
    have hn : robotMeshVisualCount r ≠ 0 := by omega
    simp [applyFreshResult, hn]
  · intro hcbf
    simp [applyFreshResult, hcbf]
  · intro hcbt hn hall
    rw [hcc] at hall
    omega

/-- `updateOverallProgress` changes only the emission log. -/
theorem updateOverallProgress_eq (s : RobotSceneState) :
    updateOverallProgress s = { s with emissions := (updateOverallProgress s).emissions } := by
  unfold updateOverallProgress
  split <;> rfl

/-- Value of the emission log after `updateOverallProgress`. -/
theorem updateOverallProgress_emissions (s : RobotSceneState) :
    (updateOverallProgress s).emissions =
      if s.onProgressCallback = false ∨ s.totalMeshes = 0 then s.emissions
      else s.emissions ++ [(s.loadedMeshes, s.totalMeshes,
        mapValuesSum s.meshLoadProgress / (s.totalMeshes : ℚ))] := by
  unfold updateOverallProgress
  split <;> simp_all

/-- Sum of the per-mesh progress values when every entry is 100. -/
theorem mapValuesSum_allHundred (n : Nat) (v : Nat → ℚ) (hv : ∀ k, k < n → v k = 100) :
    mapValuesSum ((List.range n).map (fun k => (k, v k))) = 100 * n := by
  induction n with
  | zero => simp [mapValuesSum]
  | succ n ih =>
    rw [List.range_succ, List.map_append]
    simp only [mapValuesSum, List.map_append, List.sum_append] at ih ⊢
    rw [ih (fun k hk => hv k (by omega))]
    simp [hv n (by omega)]
    ring

/-- A progress event preserves the load invariant (the settlement record
is unchanged). -/
theorem fireMeshProgress_LoadInv (cb : Bool) (n : Nat) (r : Robot) (c : Nat → Bool)
    (s : RobotSceneState) (h : Nat) (ev : ProgressEventData)
    (hInv : LoadInv cb n r c s) :
    LoadInv cb n r c (fireMeshProgress s h ev) := by
  obtain ⟨v, hv, hv100⟩ := hInv.progressMap
  rw [fireMeshProgress]
  cases hget : s.meshInstances.get? h with
  | none => exact hInv
  | some t =>
    rw [hInv.instances] at hget
    by_cases hh : h < n
    · rw [List.get?_map, List.get?_range hh] at hget
      cases hget
      simp only
      by_cases hc : c h = true
      · rw [if_pos hc]
        exact hInv
      · have hcf : c h = false := by simpa using hc
        rw [if_neg (by simp [hcf])]
        rw [hv, mapSet_map_range _ _ _ _ hh]
        rw [updateOverallProgress_eq]
        refine ⟨hInv.scene, hInv.camera, hInv.robot, hInv.total, hInv.callback,
          hInv.instances, hInv.handles, hInv.loaded, hInv.pending, ?_, hInv.triggers,
          hInv.notFramed, ?_, ?_⟩
        · refine ⟨fun k => if k = h then perMeshProgressValue ev else v k, rfl, ?_⟩
          intro k hk hck
          have hkh : k ≠ h := fun he => by rw [he] at hck; rw [hck] at hcf; cases hcf
          show (if k = h then perMeshProgressValue ev else v k) = 100
          rw [if_neg hkh]
          exact hv100 k hk hck
        · intro hcbf
          rw [updateOverallProgress_emissions]
          rw [if_pos (Or.inl (hInv.callback.trans hcbf))]
          exact hInv.silent hcbf
        · intro hcbt h0n hall
          have := countCompleted_all n c hall h hh
          rw [this] at hcf
          cases hcf
    · exfalso
      rw [List.get?_eq_none.mpr (by simp; omega)] at hget
      cases hget

/-- A completion event preserves the load invariant, settling one more
instance (or is a no-op). -/
theorem fireMeshComplete_LoadInv (cb : Bool) (n : Nat) (r : Robot) (c : Nat → Bool)
    (s : RobotSceneState) (h : Nat) (hInv : LoadInv cb n r c s) :
    ∃ cN : Nat → Bool, LoadInv cb n r cN (fireMeshComplete s h) := by
  obtain ⟨v, hv, hv100⟩ := hInv.progressMap
  rw [fireMeshComplete]
  cases hget : s.meshInstances.get? h with
  | none => exact ⟨c, hInv⟩
  | some t =>
    rw [hInv.instances] at hget
    by_cases hh : h < n
    · rw [List.get?_map, List.get?_range hh] at hget
      cases hget
      simp only
      by_cases hc : c h = true
      · rw [if_pos hc]
        exact ⟨c, hInv⟩
      · have hcf : c h = false := by simpa using hc
        rw [if_neg (by simp [hcf])]
        refine ⟨fun k => if k = h then true else c k, ?_⟩
        have hcnt := countCompleted_update n h c hh hcf
        have hlt := countCompleted_lt n h c hh hcf
        have hframed := hInv.notFramed hlt
        have hle := countCompleted_le n (fun k => if k = h then true else c k)
        rw [hInv.instances, markCompleted_map_range, hv, mapSet_map_range _ _ _ _ hh]
        rw [updateOverallProgress_eq]
        simp only
        by_cases hfin : countCompleted n (fun k => if k = h then true else c k) = n
        · rw [if_pos ?hcond]
          case hcond =>
            show s.pendingMeshLoads - 1 = 0 ∧ s.hasBeenFramed = false
            refine ⟨?_, hframed.1⟩
            rw [hInv.pending]
            omega
          refine ⟨hInv.scene, hInv.camera, hInv.robot, hInv.total, hInv.callback,
            rfl, hInv.handles, ?_, ?_, ?_, ?_, ?_, ?_, ?_⟩
          · show s.loadedMeshes + 1 = _
            rw [hInv.loaded, hcnt]
          · show s.pendingMeshLoads - 1 = _
            rw [hInv.pending, hcnt]
            push_cast
            omega
          · refine ⟨fun k => if k = h then 100 else v k, rfl, ?_⟩
            intro k hk hck
            show (if k = h then (100 : ℚ) else v k) = 100
            by_cases hkh : k = h
            · rw [if_pos hkh]
            · rw [if_neg hkh]
              rw [if_neg hkh] at hck
              exact hv100 k hk hck
          · show s.frameTriggers + 1 = _
            rw [hInv.triggers, if_pos hfin, if_neg (by omega)]
          · intro hlt2
            omega
          · intro hcbf
            rw [updateOverallProgress_emissions, if_pos (Or.inl (hInv.callback.trans hcbf))]
            exact hInv.silent hcbf
          · intro hcbt h0n hall
            show ((updateOverallProgress { s with
                meshInstances := (List.range n).map (fun k =>
                  { progressId := some k, completeId := some k,
                    completed := if k = h then true else c k }),
                pendingMeshLoads := s.pendingMeshLoads - 1,
                loadedMeshes := s.loadedMeshes + 1,
                meshLoadProgress := (List.range n).map (fun k =>
                  (k, if k = h then (100 : ℚ) else v k)) }).emissions).getLast?
              = some (n, n, 100)
            rw [updateOverallProgress_emissions]
            rw [if_neg (show ¬ (s.onProgressCallback = false ∨ s.totalMeshes = 0) from by
              rw [hInv.callback, hcbt, hInv.total]; simp; omega)]
            show (s.emissions ++ [(s.loadedMeshes + 1, s.totalMeshes,
              mapValuesSum ((List.range n).map (fun k =>
                (k, if k = h then (100 : ℚ) else v k))) / (s.totalMeshes : ℚ))]).getLast?
              = some (n, n, 100)
            rw [List.getLast?_concat]
            have hv2 : ∀ k, k < n → (if k = h then (100 : ℚ) else v k) = 100 := by
              intro k hk
              by_cases hkh : k = h
              · rw [if_pos hkh]
              · rw [if_neg hkh]
                have hck := countCompleted_all n _ hfin k hk
                rw [if_neg hkh] at hck
                exact hv100 k hk hck
            have hsum := mapValuesSum_allHundred n _ hv2
            rw [hsum, hInv.total, hInv.loaded]
            have hn0 : (n : ℚ) ≠ 0 := Nat.cast_ne_zero.mpr (by omega)
            rw [show (100 : ℚ) * n / n = 100 from by field_simp]
            have hfinal : countCompleted n c + 1 = n := by omega
            rw [hfinal]
        · rw [if_neg ?hcond2]
          case hcond2 =>
            intro hcontra
            have h3 : s.pendingMeshLoads - 1 = 0 := hcontra.1
            rw [hInv.pending] at h3
            omega
          refine ⟨hInv.scene, hInv.camera, hInv.robot, hInv.total, hInv.callback,
            rfl, hInv.handles, ?_, ?_, ?_, ?_, ?_, ?_, ?_⟩
          · show s.loadedMeshes + 1 = _
            rw [hInv.loaded, hcnt]
          · show s.pendingMeshLoads - 1 = _
            rw [hInv.pending, hcnt]
            push_cast
            omega
          · refine ⟨fun k => if k = h then 100 else v k, rfl, ?_⟩
            intro k hk hck
            show (if k = h then (100 : ℚ) else v k) = 100
            by_cases hkh : k = h
            · rw [if_pos hkh]
            · rw [if_neg hkh]
              rw [if_neg hkh] at hck
              exact hv100 k hk hck
          · show s.frameTriggers = _
            rw [hInv.triggers, if_neg hfin, if_neg (by omega)]
          · intro hlt2
            exact hframed
          · intro hcbf
            rw [updateOverallProgress_emissions, if_pos (Or.inl (hInv.callback.trans hcbf))]
            exact hInv.silent hcbf
          · intro hcbt h0n hall
            exact absurd hall hfin
    · exfalso
      rw [List.get?_eq_none.mpr (by simp; omega)] at hget
      cases hget

/-- With scene, camera and a robot present, `frameModel` is the identity
when the robot owns no render meshes, and otherwise sets the latch. -/
theorem frameModel_eq (s : RobotSceneState) (r : Robot) (hsc : s.hasScene = true)
    (hca : s.hasCamera = true) (hr : s.currentRobot = some r) :
    frameModel s = if robotRenderMeshCount r = 0 then s
      else { s with hasBeenFramed := true } := by
  rw [frameModel, if_neg (by simp [hsc, hca]), hr]

/-- A deferred frame timer preserves the load invariant. -/
theorem fireFrameTimer_LoadInv (cb : Bool) (n : Nat) (r : Robot) (c : Nat → Bool)
    (s : RobotSceneState) (hInv : LoadInv cb n r c s) :
    LoadInv cb n r c (fireFrameTimer s) := by
  rw [fireFrameTimer]
  by_cases hs : s.framesScheduled = 0
  · rw [if_pos hs]
    exact hInv
  · rw [if_neg hs]
    have hcnt : countCompleted n c = n := by
      by_contra hne
      have hlt : countCompleted n c < n :=
        lt_of_le_of_ne (countCompleted_le n c) hne
      exact hs (hInv.notFramed hlt).2
    rw [frameModel_eq { s with framesScheduled := s.framesScheduled - 1 } r
      hInv.scene hInv.camera hInv.robot]
    by_cases hmesh : robotRenderMeshCount r = 0
    · rw [if_pos hmesh]
      exact ⟨hInv.scene, hInv.camera, hInv.robot, hInv.total, hInv.callback,
        hInv.instances, hInv.handles, hInv.loaded, hInv.pending, hInv.progressMap,
        hInv.triggers, fun hlt => absurd hcnt (by omega), hInv.silent, hInv.finalEmit⟩
    · rw [if_neg hmesh]
      exact ⟨hInv.scene, hInv.camera, hInv.robot, hInv.total, hInv.callback,
        hInv.instances, hInv.handles, hInv.loaded, hInv.pending, hInv.progressMap,
        hInv.triggers, fun hlt => absurd hcnt (by omega), hInv.silent, hInv.finalEmit⟩

/-- Any single event preserves the load invariant for some settlement
record. -/
theorem stepScene_LoadInv (cb : Bool) (n : Nat) (r : Robot) (c : Nat → Bool)
    (s : RobotSceneState) (e : SceneEvent) (hInv : LoadInv cb n r c s) :
    ∃ cN : Nat → Bool, LoadInv cb n r cN (stepScene s e) := by
  cases e with
  | meshProgress h ev => exact ⟨c, fireMeshProgress_LoadInv cb n r c s h ev hInv⟩
  | meshComplete h => exact fireMeshComplete_LoadInv cb n r c s h hInv
  | frameTimer => exact ⟨c, fireFrameTimer_LoadInv cb n r c s hInv⟩

/-- Any event sequence preserves the load invariant for some settlement
record. -/
theorem runScene_LoadInv (cb : Bool) (n : Nat) (r : Robot) (c : Nat → Bool)
    (s : RobotSceneState) (es : List SceneEvent) (hInv : LoadInv cb n r c s) :
    ∃ cN : Nat → Bool, LoadInv cb n r cN (runScene s es) := by
  induction es generalizing c s with
  | nil => exact ⟨c, hInv⟩
  | cons e es ih =>
    obtain ⟨c1, h1⟩ := stepScene_LoadInv cb n r c s e hInv
    exact ih c1 (stepScene s e) h1

/-- A progress event never schedules a framing tick. -/
theorem fireMeshProgress_triggers (s : RobotSceneState) (h : Nat) (ev : ProgressEventData) :
    (fireMeshProgress s h ev).frameTriggers = s.frameTriggers := by
  unfold fireMeshProgress
  split
  · rfl
  · split
    · rfl
    · split
      · rfl
      · rw [updateOverallProgress_eq]

/-- A frame timer never schedules another framing tick. -/
theorem fireFrameTimer_triggers (s : RobotSceneState) :
    (fireFrameTimer s).frameTriggers = s.frameTriggers := by
  unfold fireFrameTimer frameModel
  split
  · rfl
  · split
    · rfl
    · split
      · rfl
      · split
        · rfl
        · rfl

/-- Once the latch is set, a completion event schedules no further framing
tick. -/
theorem fireMeshComplete_triggers_framed (s : RobotSceneState) (h : Nat)
    (hf : s.hasBeenFramed = true) :
    (fireMeshComplete s h).frameTriggers = s.frameTriggers := by
  unfold fireMeshComplete
  split
  · rfl
  · split
    · rfl
    · split
      · rfl
      · dsimp only
        split
        · next hcontra =>
            exfalso
            have h2 := hcontra.2
            rw [updateOverallProgress_eq] at h2
            have h3 : s.hasBeenFramed = false := h2
            rw [hf] at h3
            cases h3
        · rw [updateOverallProgress_eq]

/-- C3: camera auto-framing is scheduled exactly once per `applyURDF`: for
a robot with mesh visuals nothing is scheduled at apply time and the
(single) schedule happens exactly when `pendingMeshLoads` reaches zero; for
a robot with zero Mesh-geometry visuals the deferred tick is already
scheduled once at apply time, without waiting for any mesh event; and the
`hasBeenFramed` latch prevents any re-schedule once framing ran. -/
theorem framing_triggered_exactly_once :
    (∀ (cb : Bool) (text : String) (r : Robot),
      robotMeshVisualCount r = 0 →
        (applyURDF text (Except.ok r) (freshScene cb)).frameTriggers = 1 ∧
        (applyURDF text (Except.ok r) (freshScene cb)).framesScheduled = 1) ∧
    (∀ (cb : Bool) (text : String) (r : Robot),
      0 < robotMeshVisualCount r →
        (applyURDF text (Except.ok r) (freshScene cb)).frameTriggers = 0) ∧
    (∀ (cb : Bool) (text : String) (r : Robot) (es : List SceneEvent),
      ((runScene (applyURDF text (Except.ok r) (freshScene cb)) es).pendingMeshLoads = 0 →
        (runScene (applyURDF text (Except.ok r) (freshScene cb)) es).frameTriggers = 1) ∧
      ((runScene (applyURDF text (Except.ok r) (freshScene cb)) es).pendingMeshLoads ≠ 0 →
        (runScene (applyURDF text (Except.ok r) (freshScene cb)) es).frameTriggers = 0)) ∧
    (∀ (s : RobotSceneState) (e : SceneEvent),
      s.hasBeenFramed = true → (stepScene s e).frameTriggers = s.frameTriggers) := by
  refine ⟨?_, ?_, ?_, ?_⟩
  · intro cb text r hn
    rw [applyURDF_fresh_eq]
    simp [applyFreshResult, hn]
  · intro cb text r hn
    rw [applyURDF_fresh_eq]
    simp [applyFreshResult]
    omega
  · intro cb text r es
    obtain ⟨cN, hI⟩ := runScene_LoadInv cb (robotMeshVisualCount r) r (fun _ => false)
      (applyURDF text (Except.ok r) (freshScene cb)) es
      (applyURDF_fresh_LoadInv cb text r)
    have hle := countCompleted_le (robotMeshVisualCount r) cN
    constructor
    · intro hp
      rw [hI.pending] at hp
      rw [hI.triggers, if_pos (by omega)]
    · intro hp
      rw [hI.pending] at hp
      rw [hI.triggers, if_neg (by omega)]
  · intro s e hf
    cases e with
    | meshProgress h ev => exact fireMeshProgress_triggers s h ev
    | meshComplete h => exact fireMeshComplete_triggers_framed s h hf
    | frameTimer => exact fireFrameTimer_triggers s

/-- A Mesh-geometry visual, for the concrete load scenarios. -/
def meshVisual1 : Visual :=
  { name := "v1", geometry := some { shape := Shape.meshFile "a.dae", meshes := some [0] } }

/-- The link owning `meshVisual1`. -/
def meshLink1 : Link := { name := "l1", visuals := [meshVisual1] }

/-- A robot with a single Mesh-geometry visual. -/
def meshRobot1 : Robot := { name := "m1", links := [meshLink1], joints := [] }

/-- Witness for the framing theorem: after the one mesh of a concrete
one-mesh robot completes, the framing tick has been scheduled exactly
once. -/
theorem framing_triggered_exactly_once_witness :
    (runScene (applyURDF "u" (Except.ok meshRobot1) (freshScene true))
      [SceneEvent.meshComplete 0]).frameTriggers = 1 :=
  (framing_triggered_exactly_once.2.2.1 true "u" meshRobot1
    [SceneEvent.meshComplete 0]).1 (by with_unfolding_all decide)

/-- C5: on the success path `applyURDF` emits exactly one initial progress
event `(0, totalMeshes, 0)` if and only if a callback is registered and
the robot has Mesh-geometry visuals; with no callback registered the
whole load (apply plus any event interleaving) emits nothing. -/
theorem initial_and_silent_progress_emissions :
    (∀ (cb : Bool) (text : String) (r : Robot),
      (applyURDF text (Except.ok r) (freshScene cb)).emissions =
        if cb = true ∧ 0 < robotMeshVisualCount r
        then [(0, robotMeshVisualCount r, 0)] else []) ∧
    (∀ (text : String) (r : Robot) (es : List SceneEvent),
      (runScene (applyURDF text (Except.ok r) (freshScene false)) es).emissions = []) := by
  constructor
  · intro cb text r
    rw [applyURDF_fresh_eq]
    rfl
  · intro text r es
    obtain ⟨cN, hI⟩ := runScene_LoadInv false (robotMeshVisualCount r) r (fun _ => false)
      (applyURDF text (Except.ok r) (freshScene false)) es
      (applyURDF_fresh_LoadInv false text r)
    exact hI.silent rfl

/-- C4: with a progress callback registered and `totalMeshes > 0`, every
per-mesh progress or completion event makes the aggregator emit
`(loadedMeshes, totalMeshes, progress)` with
`progress = sum(perMeshProgress) / totalMeshes` over the updated per-mesh
values; a completion sets that mesh's entry to 100, increments
`loadedMeshes` and decrements `pendingMeshLoads`; and once all meshes have
completed the final emission is `(totalMeshes, totalMeshes, 100)`. -/
theorem progress_aggregation :
    (∀ (n : Nat) (r : Robot) (c : Nat → Bool) (s : RobotSceneState)
      (h : Nat) (ev : ProgressEventData),
      LoadInv true n r c s → h < n → c h = false →
      (fireMeshProgress s h ev).emissions = s.emissions ++
        [(s.loadedMeshes, s.totalMeshes,
          mapValuesSum (fireMeshProgress s h ev).meshLoadProgress / (s.totalMeshes : ℚ))]) ∧
    (∀ (n : Nat) (r : Robot) (c : Nat → Bool) (s : RobotSceneState) (h : Nat),
      LoadInv true n r c s → h < n → c h = false →
      (fireMeshComplete s h).loadedMeshes = s.loadedMeshes + 1 ∧
      (fireMeshComplete s h).pendingMeshLoads = s.pendingMeshLoads - 1 ∧
      (∃ v : Nat → ℚ, (fireMeshComplete s h).meshLoadProgress =
        (List.range n).map (fun k => (k, v k)) ∧ v h = 100) ∧
      (fireMeshComplete s h).emissions = s.emissions ++
        [(s.loadedMeshes + 1, s.totalMeshes,
          mapValuesSum (fireMeshComplete s h).meshLoadProgress / (s.totalMeshes : ℚ))]) ∧
    (∀ (text : String) (r : Robot) (es : List SceneEvent),
      0 < robotMeshVisualCount r →
      (runScene (applyURDF text (Except.ok r) (freshScene true)) es).loadedMeshes
        = robotMeshVisualCount r →
      (runScene (applyURDF text (Except.ok r) (freshScene true)) es).emissions.getLast?
        = some (robotMeshVisualCount r, robotMeshVisualCount r, 100)) := by
  refine ⟨?_, ?_, ?_⟩
  · intro n r c s h ev hInv hh hcf
    obtain ⟨v, hv, hv100⟩ := hInv.progressMap
    rw [fireMeshProgress]
    cases hget : s.meshInstances.get? h with
    | none =>
      exfalso
      rw [hInv.instances, List.get?_map, List.get?_range hh] at hget
      cases hget
    | some t =>
      rw [hInv.instances, List.get?_map, List.get?_range hh] at hget
      cases hget
      simp only
      rw [if_neg (by simp [hcf])]
      rw [updateOverallProgress_eq, updateOverallProgress_emissions]
      rw [if_neg (show ¬ (s.onProgressCallback = false ∨ s.totalMeshes = 0) from by
        rw [hInv.callback, hInv.total]; simp; omega)]
  · intro n r c s h hInv hh hcf
    obtain ⟨v, hv, hv100⟩ := hInv.progressMap
    rw [fireMeshComplete]
    cases hget : s.meshInstances.get? h with
    | none =>
      exfalso
      rw [hInv.instances, List.get?_map, List.get?_range hh] at hget
      cases hget
    | some t =>
      rw [hInv.instances, List.get?_map, List.get?_range hh] at hget
      cases hget
      simp only
      rw [if_neg (by simp [hcf])]
      rw [hv, mapSet_map_range _ _ _ _ hh]
      rw [updateOverallProgress_eq]
      dsimp only
      split
      · refine ⟨rfl, rfl, ⟨fun k => if k = h then 100 else v k, rfl, by simp⟩, ?_⟩
        rw [updateOverallProgress_emissions]
        rw [if_neg (show ¬ (s.onProgressCallback = false ∨ s.totalMeshes = 0) from by
          rw [hInv.callback, hInv.total]; simp; omega)]
        rfl
      · refine ⟨rfl, rfl, ⟨fun k => if k = h then 100 else v k, rfl, by simp⟩, ?_⟩
        rw [updateOverallProgress_emissions]
        rw [if_neg (show ¬ (s.onProgressCallback = false ∨ s.totalMeshes = 0) from by
          rw [hInv.callback, hInv.total]; simp; omega)]
  · intro text r es h0n hall
    obtain ⟨cN, hI⟩ := runScene_LoadInv true (robotMeshVisualCount r) r (fun _ => false)
      (applyURDF text (Except.ok r) (freshScene true)) es
      (applyURDF_fresh_LoadInv true text r)
    refine hI.finalEmit rfl h0n ?_
    rw [← hI.loaded]
    exact hall

/-- Witness for the aggregation theorem: its completion conjunct
instantiated at the single mesh of the concrete one-mesh robot, right
after `applyURDF`. -/
theorem progress_aggregation_witness :
    (fireMeshComplete (applyURDF "u" (Except.ok meshRobot1) (freshScene true)) 0).loadedMeshes
      = (applyURDF "u" (Except.ok meshRobot1) (freshScene true)).loadedMeshes + 1 ∧
    (fireMeshComplete (applyURDF "u" (Except.ok meshRobot1) (freshScene true)) 0).pendingMeshLoads
      = (applyURDF "u" (Except.ok meshRobot1) (freshScene true)).pendingMeshLoads - 1 ∧
    (∃ v : Nat → ℚ,
      (fireMeshComplete (applyURDF "u" (Except.ok meshRobot1) (freshScene true)) 0).meshLoadProgress
        = (List.range 1).map (fun k => (k, v k)) ∧ v 0 = 100) ∧
    (fireMeshComplete (applyURDF "u" (Except.ok meshRobot1) (freshScene true)) 0).emissions
      = (applyURDF "u" (Except.ok meshRobot1) (freshScene true)).emissions ++
        [((applyURDF "u" (Except.ok meshRobot1) (freshScene true)).loadedMeshes + 1,
          (applyURDF "u" (Except.ok meshRobot1) (freshScene true)).totalMeshes,
          mapValuesSum (fireMeshComplete
            (applyURDF "u" (Except.ok meshRobot1) (freshScene true)) 0).meshLoadProgress /
            ((applyURDF "u" (Except.ok meshRobot1) (freshScene true)).totalMeshes : ℚ))] :=
  progress_aggregation.2.1 1 meshRobot1 (fun _ => false)
    (applyURDF "u" (Except.ok meshRobot1) (freshScene true)) 0
    (applyURDF_fresh_LoadInv true "u" meshRobot1) (by decide) rfl

/-- Pointwise description of `detachFrom`. -/
theorem detachFrom_get (handles : List Nat) (i h : Nat) (ts : List MeshTracker) :
    (detachFrom handles i ts).get? h = (ts.get? h).map
      (fun t => if handles.contains (i + h) then detachMeshInstance t else t) := by
  induction ts generalizing i h with
  | nil => simp [detachFrom]
  | cons t ts ih =>
    cases h with
    | zero => simp [detachFrom]
    | succ h =>
      simp only [detachFrom, List.get?_cons_succ, ih]
      have hidx : i + 1 + h = i + (h + 1) := by omega
      rw [hidx]

/-- `detachFrom` preserves the arena length. -/
theorem detachFrom_length (handles : List Nat) (i : Nat) (ts : List MeshTracker) :
    (detachFrom handles i ts).length = ts.length := by
  induction ts generalizing i with
  | nil => rfl
  | cons t ts ih => simp [detachFrom, ih]

/-- The prologue of `applyURDF` always leaves `currentRobot` undefined. -/
theorem applyURDFPrologue_robot (s : RobotSceneState) :
    (applyURDFPrologue s).currentRobot = none := by
  rw [applyURDFPrologue]
  cases hr : s.currentRobot with
  | none => exact hr
  | some r0 => rfl

/-- When a robot was loaded, the prologue detaches the callbacks of every
mesh instance belonging to it. -/
theorem applyURDFPrologue_detaches (s : RobotSceneState) (R0 : Robot) (h : Nat)
    (hr : s.currentRobot = some R0) (hmem : h ∈ s.currentRobotMeshes)
    (hlen : h < s.meshInstances.length) :
    ∃ t0, s.meshInstances.get? h = some t0 ∧
      (applyURDFPrologue s).meshInstances.get? h = some (detachMeshInstance t0) := by
  rw [applyURDFPrologue, hr]
  cases ht0 : s.meshInstances.get? h with
  | none =>
    exfalso
    rw [List.get?_eq_none] at ht0
    omega
  | some t0 =>
    refine ⟨t0, rfl, ?_⟩
    show (detachFrom s.currentRobotMeshes 0 s.meshInstances).get? h = _
    rw [detachFrom_get, ht0]
    simp [hmem, show s.currentRobotMeshes.contains h = true from List.elem_iff.mpr hmem]

/-- Instances whose callbacks are detached ignore both completion and
progress events. -/
theorem detached_events_noop (s : RobotSceneState) (h : Nat) (t : MeshTracker)
    (hget : s.meshInstances.get? h = some t)
    (hp : t.progressId = none) (hc : t.completeId = none) :
    fireMeshComplete s h = s ∧ ∀ ev, fireMeshProgress s h ev = s := by
  constructor
  · rw [fireMeshComplete]
    cases hx : s.meshInstances.get? h with
    | none => rfl
    | some t2 =>
      rw [hget] at hx
      cases hx
      simp only
      by_cases hcomp : t.completed = true
      · rw [if_pos hcomp]
      · rw [if_neg hcomp, hc]
  · intro ev
    rw [fireMeshProgress]
    cases hx : s.meshInstances.get? h with
    | none => rfl
    | some t2 =>
      rw [hget] at hx
      cases hx
      simp only
      by_cases hcomp : t.completed = true
      · rw [if_pos hcomp]
      · rw [if_neg hcomp, hp]

/-- Projections of the state after a successful `applyURDF` on an
arbitrary prior state: aggregator counters, progress map and latch are
reset for the new load, the new robot is current, and instances already in
the arena keep their (possibly detached) callback state. -/
theorem applyURDF_ok_resets (text : String) (r2 : Robot) (s : RobotSceneState)
    (hs : (applyURDFPrologue s).hasScene = true) :
    (applyURDF text (Except.ok r2) s).currentRobot = some r2 ∧
    (applyURDF text (Except.ok r2) s).totalMeshes = robotMeshVisualCount r2 ∧
    (applyURDF text (Except.ok r2) s).loadedMeshes = 0 ∧
    (applyURDF text (Except.ok r2) s).pendingMeshLoads = (robotMeshVisualCount r2 : Int) ∧
    (applyURDF text (Except.ok r2) s).hasBeenFramed = false ∧
    (applyURDF text (Except.ok r2) s).meshLoadProgress =
      (List.range (robotMeshVisualCount r2)).map (fun k => (k, (0 : ℚ))) ∧
    (∀ h, h < (applyURDFPrologue s).meshInstances.length →
      (applyURDF text (Except.ok r2) s).meshInstances.get? h =
        (applyURDFPrologue s).meshInstances.get? h) := by
  rw [applyURDF]
  rw [if_neg (by rw [hs]; simp)]
  simp only
  rw [registerMesh_foldl _ _ (by split <;> rfl)]
  have hsched : ∀ X : RobotSceneState,
      ((if X.pendingMeshLoads = 0 ∧ X.hasBeenFramed = false
        then scheduleFrameModel X else X).currentRobot = X.currentRobot ∧
      (if X.pendingMeshLoads = 0 ∧ X.hasBeenFramed = false
        then scheduleFrameModel X else X).totalMeshes = X.totalMeshes ∧
      (if X.pendingMeshLoads = 0 ∧ X.hasBeenFramed = false
        then scheduleFrameModel X else X).loadedMeshes = X.loadedMeshes ∧
      (if X.pendingMeshLoads = 0 ∧ X.hasBeenFramed = false
        then scheduleFrameModel X else X).pendingMeshLoads = X.pendingMeshLoads ∧
      (if X.pendingMeshLoads = 0 ∧ X.hasBeenFramed = false
        then scheduleFrameModel X else X).hasBeenFramed = X.hasBeenFramed ∧
      (if X.pendingMeshLoads = 0 ∧ X.hasBeenFramed = false
        then scheduleFrameModel X else X).meshLoadProgress = X.meshLoadProgress ∧
      (if X.pendingMeshLoads = 0 ∧ X.hasBeenFramed = false
        then scheduleFrameModel X else X).meshInstances = X.meshInstances) := by
    intro X
    split <;> exact ⟨rfl, rfl, rfl, rfl, rfl, rfl, rfl⟩
  obtain ⟨e1, e2, e3, e4, e5, e6, e7⟩ := hsched _
  refine ⟨?_, ?_, ?_, ?_, ?_, ?_, ?_⟩
  · rw [e1]
    split <;> rfl
  · rw [e2]
    split <;> rfl
  · rw [e3]
    split <;> rfl
  · rw [e4]
    split <;> simp
  · rw [e5]
    split <;> rfl
  · rw [e6]
  · intro h hlen
    rw [e7]
    have hpre : ∀ Y : RobotSceneState, Y.meshInstances =
        (applyURDFPrologue s).meshInstances →
        (Y.meshInstances ++ (List.range (robotMeshVisualCount r2)).map (fun k =>
          ({ progressId := some k, completeId := some k, completed := false }
            : MeshTracker))).get? h = (applyURDFPrologue s).meshInstances.get? h := by
      intro Y hY
      rw [hY, List.get?_append hlen]
    split <;> exact hpre _ rfl

/-- The load state of the second concrete load, used by the cancellation
witness. -/
def meshRobot2 : Robot := { name := "m2", links := [meshLink1, meshLink1], joints := [] }

/-- C6: calling `applyURDF` again while a previous load is in flight
immediately disposes the previous robot and detaches it from
`currentRobot` before the new parse starts (prologue), detaches the
superseded robot's mesh-load subscriptions, resets the aggregator state
(`totalMeshes`, `loadedMeshes`, `pendingMeshLoads`, the per-mesh progress
map, `hasBeenFramed`) for the new load, and completion or progress
callbacks arriving afterwards from the superseded robot's meshes are
no-ops on the new load's counters.
The detachment itself is the spec-modelled `Robot.dispose` behavior
(§5: disposal must detach). -/
theorem reapply_invalidates_previous_load :
    (∀ (s : RobotSceneState) (R0 : Robot), s.currentRobot = some R0 →
      (applyURDFPrologue s).currentRobot = none) ∧
    (∀ (text : String) (r2 : Robot) (s : RobotSceneState),
      (applyURDFPrologue s).hasScene = true →
      (applyURDF text (Except.ok r2) s).currentRobot = some r2 ∧
      (applyURDF text (Except.ok r2) s).totalMeshes = robotMeshVisualCount r2 ∧
      (applyURDF text (Except.ok r2) s).loadedMeshes = 0 ∧
      (applyURDF text (Except.ok r2) s).pendingMeshLoads = (robotMeshVisualCount r2 : Int) ∧
      (applyURDF text (Except.ok r2) s).hasBeenFramed = false ∧
      (applyURDF text (Except.ok r2) s).meshLoadProgress =
        (List.range (robotMeshVisualCount r2)).map (fun k => (k, (0 : ℚ)))) ∧
    (∀ (text : String) (r2 : Robot) (s : RobotSceneState) (R0 : Robot) (h : Nat),
      s.currentRobot = some R0 →
      (applyURDFPrologue s).hasScene = true →
      h ∈ s.currentRobotMeshes →
      h < s.meshInstances.length →
      fireMeshComplete (applyURDF text (Except.ok r2) s) h =
        applyURDF text (Except.ok r2) s ∧
      (∀ ev, fireMeshProgress (applyURDF text (Except.ok r2) s) h ev =
        applyURDF text (Except.ok r2) s)) := by
  refine ⟨?_, ?_, ?_⟩
  · intro s R0 hr
    exact applyURDFPrologue_robot s
  · intro text r2 s hs
    obtain ⟨a1, a2, a3, a4, a5, a6, -⟩ := applyURDF_ok_resets text r2 s hs
    exact ⟨a1, a2, a3, a4, a5, a6⟩
  · intro text r2 s R0 h hr hs hmem hlen
    obtain ⟨t0, ht0, hdet⟩ := applyURDFPrologue_detaches s R0 h hr hmem hlen
    obtain ⟨-, -, -, -, -, -, apre⟩ := applyURDF_ok_resets text r2 s hs
    have hlen2 : h < (applyURDFPrologue s).meshInstances.length := by
      have : (applyURDFPrologue s).meshInstances.length = s.meshInstances.length := by
        rw [applyURDFPrologue]
        cases hrr : s.currentRobot with
        | none => rfl
        | some r0 =>
          show (detachFrom s.currentRobotMeshes 0 s.meshInstances).length = _
          exact detachFrom_length _ _ _
      omega
    have hget2 : (applyURDF text (Except.ok r2) s).meshInstances.get? h =
        some (detachMeshInstance t0) := by
      rw [apre h hlen2, hdet]
    exact detached_events_noop _ h (detachMeshInstance t0) hget2 rfl rfl

/-- Witness for the cancellation theorem: the stale-completion conjunct
instantiated at the in-flight one-mesh scene superseded by a second load. -/
theorem reapply_invalidates_previous_load_witness :
    fireMeshComplete (applyURDF "u2" (Except.ok meshRobot2)
        (applyURDF "u1" (Except.ok meshRobot1) (freshScene true))) 0 =
      applyURDF "u2" (Except.ok meshRobot2)
        (applyURDF "u1" (Except.ok meshRobot1) (freshScene true)) ∧
    (∀ ev, fireMeshProgress (applyURDF "u2" (Except.ok meshRobot2)
        (applyURDF "u1" (Except.ok meshRobot1) (freshScene true))) 0 ev =
      applyURDF "u2" (Except.ok meshRobot2)
        (applyURDF "u1" (Except.ok meshRobot1) (freshScene true))) :=
  reapply_invalidates_previous_load.2.2 "u2" meshRobot2
    (applyURDF "u1" (Except.ok meshRobot1) (freshScene true)) meshRobot1 0
    (by with_unfolding_all decide) (by with_unfolding_all decide)
    (by with_unfolding_all decide) (by with_unfolding_all decide)

/-- A scene with a robot already loaded, used to refute C1. -/
def robotBase : Robot :=
  { name := "r0", links := [{ name := "base", visuals := [] }], joints := [] }

/-- A scene holding `robotBase` as the loaded robot. -/
def sceneWithRobot : RobotSceneState :=
  { freshScene true with currentRobot := some robotBase }

/-- C1 counterexample: with `robotBase` loaded, an `applyURDF` whose
deserialization fails (a `MalformedURDFError`) leaves `currentRobot`
undefined — the previously-loaded robot is NOT still current. -/
theorem applyURDF_failure_keeps_robot_counterexample :
    sceneWithRobot.currentRobot = some robotBase ∧
    (applyURDF "<bad/>" (Except.error "MalformedURDFError")
      sceneWithRobot).currentRobot = none ∧
    ¬ ((applyURDF "<bad/>" (Except.error "MalformedURDFError")
      sceneWithRobot).currentRobot = some robotBase) := by
  refine ⟨rfl, by with_unfolding_all decide, by with_unfolding_all decide⟩

/-- C1 (amended): the previously-loaded robot is disposed and detached
before deserialization is attempted, so when deserialization fails,
`applyURDF` reports the error and finishes with `currentRobot` undefined
(the viewer is left empty), not with the previous robot intact. -/
theorem applyURDF_failure_leaves_no_robot (text err : String) (s : RobotSceneState) :
    (applyURDFPrologue s).currentRobot = none ∧
    (applyURDF text (Except.error err) s).currentRobot = none := by
  refine ⟨applyURDFPrologue_robot s, ?_⟩
  rw [applyURDF]
  by_cases hs : (applyURDFPrologue s).hasScene = false
  · rw [if_pos hs]
    exact applyURDFPrologue_robot s
  · rw [if_neg hs]
    simp only
    exact applyURDFPrologue_robot s

/-! ## Camera: `resetCamera` and the saved auto-framed view

Camera angles are stored as exact rational multiples of pi: the value
`q : ℚ` stands for the angle `q * pi` (the source only ever assigns
rational multiples of `Math.PI` here: `-Math.PI / 3` is `-1/3`,
`5 * Math.PI / 12` is `5/12`, `2 * Math.PI / 3` is `2/3`). -/

/-- The pose of the `ArcRotateCamera`: alpha, beta (as multiples of pi),
radius and target. -/
structure CameraState where
  alpha : ℚ
  beta : ℚ
  radius : ℚ
  target : Vector3
deriving DecidableEq, Repr

/-- The camera-related scene state: the optional camera, the framing
latch, and the view saved by the last auto-framing. -/
structure CameraScene where
  camera : Option CameraState
  hasBeenFramed : Bool
  savedFramingTarget : Vector3
  savedFramingRadius : ℚ
  savedFramingAlpha : ℚ
  savedFramingBeta : ℚ
deriving DecidableEq, Repr

/-- `resetCamera` of the current variant (`RobotScene.ts:2085-2101`):
with a camera, restore the saved auto-framed view when `hasBeenFramed`,
else fall back to the default view alpha = 2π/3, beta = 5π/12,
radius = 1, target = origin. -/
def resetCamera (s : CameraScene) : CameraScene :=
  match s.camera with
  | none => s
  | some _ =>
    if s.hasBeenFramed = true then
      let saved : CameraState :=
        { alpha := s.savedFramingAlpha, beta := s.savedFramingBeta,
          radius := s.savedFramingRadius, target := s.savedFramingTarget }
      { s with camera := some saved }
    else
      let dflt : CameraState :=
        { alpha := 2/3, beta := 5/12, radius := 1, target := ⟨0, 0, 0⟩ }
      { s with camera := some dflt }

/-- `resetCamera` of the legacy variant (`RobotScene.ts:397-413`): same
restore branch, but the default view has alpha = −π/3. -/
def legacyResetCamera (s : CameraScene) : CameraScene :=
  match s.camera with
  | none => s
  | some _ =>
    if s.hasBeenFramed = true then
      let saved : CameraState :=
        { alpha := s.savedFramingAlpha, beta := s.savedFramingBeta,
          radius := s.savedFramingRadius, target := s.savedFramingTarget }
      { s with camera := some saved }
    else
      let dflt : CameraState :=
        { alpha := -1/3, beta := 5/12, radius := 1, target := ⟨0, 0, 0⟩ }
      { s with camera := some dflt }

/-- A concrete unframed camera scene. -/
def unframedCamScene : CameraScene :=
  { camera := some { alpha := 0, beta := 0, radius := 5, target := ⟨1, 2, 3⟩ },
    hasBeenFramed := false, savedFramingTarget := ⟨0, 0, 0⟩,
    savedFramingRadius := 1, savedFramingAlpha := 2/3, savedFramingBeta := 5/12 }

/-- C7 counterexample: on the current scene controller, `resetCamera`
without prior framing sets alpha = 2π/3 (about +120°), not −π/3 (about
−60°) as claimed. -/
theorem resetCamera_default_alpha_counterexample :
    unframedCamScene.hasBeenFramed = false ∧
    (resetCamera unframedCamScene).camera.map (fun c => c.alpha) = some (2/3) ∧
    ¬ ((resetCamera unframedCamScene).camera.map (fun c => c.alpha) = some (-1/3)) := by
  refine ⟨rfl, by with_unfolding_all decide, by with_unfolding_all decide⟩

/-- C7 (amended): `resetCamera` restores the saved auto-framed view
(target, radius, alpha, beta) whenever auto-framing has occurred since the
last `applyURDF` (which resets the latch); otherwise it sets the
hard-coded default view beta = 5π/12, radius = 1, target = origin — with
default alpha = 2π/3 in the current controller variant and alpha = −π/3
in the legacy variant. -/
theorem resetCamera_amended :
    (∀ (s : CameraScene) (cam : CameraState), s.camera = some cam →
      s.hasBeenFramed = true →
      (resetCamera s).camera = some
        { alpha := s.savedFramingAlpha, beta := s.savedFramingBeta,
          radius := s.savedFramingRadius, target := s.savedFramingTarget } ∧
      (legacyResetCamera s).camera = some
        { alpha := s.savedFramingAlpha, beta := s.savedFramingBeta,
          radius := s.savedFramingRadius, target := s.savedFramingTarget }) ∧
    (∀ (s : CameraScene) (cam : CameraState), s.camera = some cam →
      s.hasBeenFramed = false →
      (resetCamera s).camera = some
        { alpha := 2/3, beta := 5/12, radius := 1, target := ⟨0, 0, 0⟩ } ∧
      (legacyResetCamera s).camera = some
        { alpha := -1/3, beta := 5/12, radius := 1, target := ⟨0, 0, 0⟩ }) ∧
    (∀ (text : String) (r2 : Robot) (s : RobotSceneState),
      (applyURDFPrologue s).hasScene = true →
      (applyURDF text (Except.ok r2) s).hasBeenFramed = false) := by
  refine ⟨?_, ?_, ?_⟩
  · intro s cam hc hf
    constructor
    · rw [resetCamera]
      cases hx : s.camera with
      | none => rw [hc] at hx; cases hx
      | some c2 => rw [if_pos hf]
    · rw [legacyResetCamera]
      cases hx : s.camera with
      | none => rw [hc] at hx; cases hx
      | some c2 => rw [if_pos hf]
  · intro s cam hc hf
    constructor
    · rw [resetCamera]
      cases hx : s.camera with
      | none => rw [hc] at hx; cases hx
      | some c2 => rw [if_neg (by simp [hf])]
    · rw [legacyResetCamera]
      cases hx : s.camera with
      | none => rw [hc] at hx; cases hx
      | some c2 => rw [if_neg (by simp [hf])]
  · intro text r2 s hs
    exact (applyURDF_ok_resets text r2 s hs).2.2.2.2.1

/-- Witness for the amended `resetCamera` theorem: restoring a concrete
framed scene. -/
theorem resetCamera_amended_witness :
    (resetCamera { unframedCamScene with hasBeenFramed := true }).camera = some
      { alpha := ({ unframedCamScene with hasBeenFramed := true }
          : CameraScene).savedFramingAlpha,
        beta := ({ unframedCamScene with hasBeenFramed := true }
          : CameraScene).savedFramingBeta,
        radius := ({ unframedCamScene with hasBeenFramed := true }
          : CameraScene).savedFramingRadius,
        target := ({ unframedCamScene with hasBeenFramed := true }
          : CameraScene).savedFramingTarget } ∧
    (legacyResetCamera { unframedCamScene with hasBeenFramed := true }).camera = some
      { alpha := ({ unframedCamScene with hasBeenFramed := true }
          : CameraScene).savedFramingAlpha,
        beta := ({ unframedCamScene with hasBeenFramed := true }
          : CameraScene).savedFramingBeta,
        radius := ({ unframedCamScene with hasBeenFramed := true }
          : CameraScene).savedFramingRadius,
        target := ({ unframedCamScene with hasBeenFramed := true }
          : CameraScene).savedFramingTarget } :=
  resetCamera_amended.1 { unframedCamScene with hasBeenFramed := true }
    { alpha := 0, beta := 0, radius := 5, target := ⟨1, 2, 3⟩ } rfl rfl

/-! ## Kinematic tree assembly (spec-modelled) -/

/-- Parent of a link's transform in the assembled hierarchy. -/
inductive ParentRef
  | rootTransform
  | jointTransform (jointName : String)
deriving DecidableEq, Repr

/-- The assembled transform hierarchy: the synthetic root transforms
created, and each link's transform parent. -/
structure TransformTree where
  rootTransforms : List String
  parentOf : List (String × ParentRef)
deriving DecidableEq, Repr

/-- Modelled from the spec: the tree-assembly steps 4-5 of §4.2 of the
kinematic tree builder (the deserializer sources `urdf.ts` / `Robot.ts`
are not part of this snapshot): exactly one synthetic root transform is
created; a link that is some joint's child is parented to that joint's
transform; every orphan link (no incoming joint edge) is parented
directly to the synthetic root. -/
def buildTree (links : List Link) (joints : List Joint) : TransformTree :=
  { rootTransforms := ["root"],
    parentOf := links.map (fun l =>
      (l.name,
        match joints.find? (fun j => j.childName == l.name) with
        | some j => ParentRef.jointTransform j.name
        | none => ParentRef.rootTransform)) }

/-- A parsed URDF document as the builder sees it. -/
structure UrdfDoc where
  hasRobotElement : Bool
  name : String
  links : List Link
  joints : List Joint
deriving DecidableEq, Repr

/-- Modelled from the spec: `buildRobot` (§4.2) fails with
`MalformedURDFError` exactly when the document has no root robot element
or no links at all; otherwise it produces the Robot collections and the
assembled transform tree. -/
def buildRobot (doc : UrdfDoc) : Except String (Robot × TransformTree) :=
  if doc.hasRobotElement = false then
    Except.error "MalformedURDFError: no robot element"
  else if doc.links.isEmpty then
    Except.error "MalformedURDFError: no links"
  else
    Except.ok ({ name := doc.name, links := doc.links, joints := doc.joints },
      buildTree doc.links doc.joints)

/-- A two-link, zero-joint document. -/
def twoLinkDoc : UrdfDoc :=
  { hasRobotElement := true, name := "r",
    links := [{ name := "linkA", visuals := [] }, { name := "linkB", visuals := [] }],
    joints := [] }

/-- C9: every built Robot has exactly one synthetic root transform; every
orphan link (named as no joint's child) is parented directly to it; and a
two-link zero-joint URDF builds with both links parented to the root and
an empty joints map. -/
theorem one_root_and_orphan_reparenting :
    (∀ (links : List Link) (joints : List Joint),
      (buildTree links joints).rootTransforms.length = 1) ∧
    (∀ (links : List Link) (joints : List Joint) (l : Link),
      l ∈ links → (∀ j ∈ joints, j.childName ≠ l.name) →
      (l.name, ParentRef.rootTransform) ∈ (buildTree links joints).parentOf) ∧
    (∀ doc : UrdfDoc, doc.hasRobotElement = true → doc.links ≠ [] → doc.joints = [] →
      ∃ rob tree, buildRobot doc = Except.ok (rob, tree) ∧ rob.joints = [] ∧
        ∀ l ∈ doc.links, (l.name, ParentRef.rootTransform) ∈ tree.parentOf) ∧
    (∃ rob tree, buildRobot twoLinkDoc = Except.ok (rob, tree) ∧ rob.joints = [] ∧
      tree.rootTransforms = ["root"] ∧
      tree.parentOf = [("linkA", ParentRef.rootTransform),
        ("linkB", ParentRef.rootTransform)]) := by
  have horphan : ∀ (links : List Link) (joints : List Joint) (l : Link),
      l ∈ links → (∀ j ∈ joints, j.childName ≠ l.name) →
      (l.name, ParentRef.rootTransform) ∈ (buildTree links joints).parentOf := by
    intro links joints l hl hnone
    rw [buildTree]
    simp only [List.mem_map]
    refine ⟨l, hl, ?_⟩
    rw [List.find?_eq_none.mpr (by intro j hj; simpa using hnone j hj)]
  refine ⟨fun links joints => rfl, horphan, ?_, ?_⟩
  · intro doc hre hlinks hjoints
    refine ⟨{ name := doc.name, links := doc.links, joints := doc.joints },
      buildTree doc.links doc.joints, ?_, ?_, ?_⟩
    · rw [buildRobot, if_neg (by simp [hre]), if_neg (by simpa using hlinks)]
    · exact hjoints
    · intro l hl
      exact horphan doc.links doc.joints l hl (by rw [hjoints]; intro j hj; cases hj)
  · exact ⟨{ name := "r", links := twoLinkDoc.links, joints := [] },
      buildTree twoLinkDoc.links [], rfl, rfl, rfl, rfl⟩

/-- Witness for the tree theorem: the zero-joint conjunct instantiated at
the concrete two-link document. -/
theorem one_root_and_orphan_reparenting_witness :
    ∃ rob tree, buildRobot twoLinkDoc = Except.ok (rob, tree) ∧ rob.joints = [] ∧
      ∀ l ∈ twoLinkDoc.links, (l.name, ParentRef.rootTransform) ∈ tree.parentOf :=
  one_root_and_orphan_reparenting.2.2.1 twoLinkDoc rfl (by decide) rfl

end BabylonRos
